import Mathlib

/-!
Gas Town: orphan reconciliation and queue release validation.

A shallow embedding of

* `internal/doctor/orphan_check.go`: `isCrewSession`, `isValidSession`,
  `isOrphanProcess`, and the `Run` and `Fix` methods of `OrphanSessionCheck`
  and `OrphanProcessCheck`;
* `internal/cmd/mail_test.go`: `validateRelease`, and the cases of the tests
  of `matchWorkerPattern` and `isEligibleWorker`, two functions that are
  themselves modelled from the spec.

A Go `string` is modelled as a list of characters.  Every separator and
keyword the code compares against is ASCII, so cutting on the character
`-` agrees with cutting on the byte `-`.
-/

set_option autoImplicit false

namespace Gastown

/-! Section: Strings and the `strings` package -/

/-- Go `string`, as the list of its characters. -/
abbrev Str := List Char

/-- Go `strings.Cut(s, sep)` for a one-character separator: the text before
the first `sep` and the text after it, or `none` when `s` has no `sep`
(`strings.Index(s, sep) < 0`). -/
def Cut (sep : Char) : Str → Option (Str × Str)
  | [] => none
  | c :: cs =>
    if c = sep then some ([], cs)
    else
      match Cut sep cs with
      | none => none
      | some (before, after) => some (c :: before, after)

/-- Go `strings.Count(s, sep)` for a one-character separator. -/
def Count (sep : Char) : Str → Nat
  | [] => 0
  | c :: cs => if c = sep then Count sep cs + 1 else Count sep cs

/-- Go `strings.SplitN(s, sep, n)` for a one-character separator and `n ≥ 0`:
`n = 0` gives no pieces; otherwise `s` is cut at the first `n - 1`
separators and the last piece is the unsplit remainder. -/
def SplitN (sep : Char) : Nat → Str → List Str
  | 0, _ => []
  | 1, s => [s]
  | n + 2, s =>
    match Cut sep s with
    | none => [s]
    | some (before, after) => before :: SplitN sep (n + 1) after

/-- Go `strings.Split(s, sep)`: `SplitN` with `n = Count(s, sep) + 1`, as in
`genSplit` called with `n = -1`. -/
def Split (sep : Char) (s : Str) : List Str :=
  SplitN sep (Count sep s + 1) s

/-- Go `strings.HasPrefix(s, prefix)`. -/
def HasPrefix (s pre : Str) : Bool :=
  pre.isPrefixOf s

/-- Go `strings.Contains(s, substr)`. -/
def Contains (s substr : Str) : Bool :=
  decide (substr <:+: s)

/-- Go `fmt.Sprintf("%d", n)` for an integer. -/
def sprintfD (n : Int) : Str :=
  (toString n).toList

/-! Section: `internal/doctor/orphan_check.go` -/

/-- Go `isCrewSession`: the name cut on `-` has at least four parts, the
first is `gt` and the third is `crew`. -/
def isCrewSession (session : Str) : Bool :=
  let parts := Split '-' session
  if 4 ≤ parts.length ∧ parts[0]? = some "gt".toList ∧ parts[2]? = some "crew".toList then
    true
  else
    false

/-- Go loop `for _, r := range validRigs { if r == rigName { rigFound = true; break } }`
of `isValidSession`, returning the final `rigFound`. -/
def rigFound (rigName : Str) : List Str → Bool
  | [] => false
  | r :: rest => if r = rigName then true else rigFound rigName rest

/-- Go `(*OrphanSessionCheck).isValidSession`.  The receiver is not read. -/
def OrphanSessionCheck.isValidSession (sess : Str) (validRigs : List Str)
    (mayorSession deaconSession : Str) : Bool :=
  if mayorSession ≠ [] ∧ sess = mayorSession then true
  else if deaconSession ≠ [] ∧ sess = deaconSession then true
  else
    let parts := SplitN '-' 3 sess
    if h : parts.length < 3 then false
    else
      let rigName := parts[1]
      if ¬ rigFound rigName validRigs = true then false
      else
        let role := parts[2]
        if role = "witness".toList ∨ role = "refinery".toList then true
        else true

/-- Go `processInfo`. -/
structure processInfo where
  pid : Int
  ppid : Int
  cmd : Str
  args : Str
  isGasTown : Bool
deriving DecidableEq, Repr

/-- Modelled from the spec: the `events` package is not among the sources;
this is the one event type the fix operations pass to `events.LogFeed`. -/
inductive EventType where
  | TypeSessionDeath
deriving DecidableEq, Repr

/-- Modelled from the spec: the value of
`events.SessionDeathPayload(session, agent, reason, caller)`, kept as the four
arguments of the call. -/
structure SessionDeathPayload where
  session : Str
  agent : Str
  reason : Str
  caller : Str
deriving DecidableEq, Repr

/-- One call of a fix operation to an outside collaborator. -/
inductive Action where
  /-- Call `events.LogFeed(eventType, subject, payload)`. -/
  | LogFeed (eventType : EventType) (subject : Str) (payload : SessionDeathPayload)
  /-- Call `t.KillSession(sess)`. -/
  | KillSession (sess : Str)
  /-- Call `exec.Command("kill", fmt.Sprintf("%d", pid)).Run()`. -/
  | Kill (pid : Int)
deriving DecidableEq, Repr

/-- The outside collaborators of the fix operations.  Each call sees the
current world `σ`, answers `none` (Go `nil`) or an error `ε`, and leaves a new
world, so an answer may depend on everything that happened before. -/
structure Collaborators (σ ε : Type) where
  LogFeed : EventType → Str → SessionDeathPayload → σ → Option ε × σ
  KillSession : Str → σ → Option ε × σ
  Kill : Int → σ → Option ε × σ

/-- Loop state of a fix operation: the world, the calls issued so far (oldest
first) and the Go local `lastErr`. -/
structure FixState (σ ε : Type) where
  world : σ
  trace : List Action
  lastErr : Option ε

/-- Go `if err := ...; err != nil { lastErr = err }`. -/
def setLastErr {ε : Type} (lastErr err : Option ε) : Option ε :=
  match err with
  | some e => some e
  | none => lastErr

/-- Payload of the audit event for an orphan session. -/
def sessionDeath (sess : Str) : SessionDeathPayload :=
  ⟨sess, "unknown".toList, "orphan cleanup".toList, "gt doctor".toList⟩

/-- Body of `for _, sess := range c.orphanSessions` in
`(*OrphanSessionCheck).Fix`. -/
def OrphanSessionCheck.fixLoop {σ ε : Type} (env : Collaborators σ ε) :
    List Str → FixState σ ε → FixState σ ε
  | [], st => st
  | sess :: rest, st =>
    if isCrewSession sess = true then
      OrphanSessionCheck.fixLoop env rest st
    else
      let logged := env.LogFeed EventType.TypeSessionDeath sess (sessionDeath sess) st.world
      let killed := env.KillSession sess logged.2
      OrphanSessionCheck.fixLoop env rest
        ⟨killed.2,
         st.trace ++ [Action.LogFeed EventType.TypeSessionDeath sess (sessionDeath sess),
                      Action.KillSession sess],
         setLastErr st.lastErr killed.1⟩

/-- Go `(*OrphanSessionCheck).Fix`, on the cached `c.orphanSessions`.  The
returned `lastErr` is Go's return value. -/
def OrphanSessionCheck.Fix {σ ε : Type} (env : Collaborators σ ε)
    (orphanSessions : List Str) (world : σ) : FixState σ ε :=
  if orphanSessions.length = 0 then ⟨world, [], none⟩
  else OrphanSessionCheck.fixLoop env orphanSessions ⟨world, [], none⟩

/-- Go `fmt.Sprintf("pid-%d", pid)`. -/
def pidSubject (pid : Int) : Str :=
  "pid-".toList ++ sprintfD pid

/-- Payload of the audit event for an orphan process. -/
def processDeath (pid : Int) : SessionDeathPayload :=
  ⟨pidSubject pid, "unknown".toList, "orphan process cleanup".toList, "gt doctor".toList⟩

/-- Body of `for _, proc := range c.orphanProcesses` in
`(*OrphanProcessCheck).Fix`. -/
def OrphanProcessCheck.fixLoop {σ ε : Type} (env : Collaborators σ ε) :
    List processInfo → FixState σ ε → FixState σ ε
  | [], st => st
  | proc :: rest, st =>
    if ¬ proc.isGasTown = true then
      OrphanProcessCheck.fixLoop env rest st
    else
      let logged := env.LogFeed EventType.TypeSessionDeath (pidSubject proc.pid)
        (processDeath proc.pid) st.world
      let killed := env.Kill proc.pid logged.2
      OrphanProcessCheck.fixLoop env rest
        ⟨killed.2,
         st.trace ++ [Action.LogFeed EventType.TypeSessionDeath (pidSubject proc.pid)
                        (processDeath proc.pid),
                      Action.Kill proc.pid],
         setLastErr st.lastErr killed.1⟩

/-- Go `(*OrphanProcessCheck).Fix`, on the cached `c.orphanProcesses`. -/
def OrphanProcessCheck.Fix {σ ε : Type} (env : Collaborators σ ε)
    (orphanProcesses : List processInfo) (world : σ) : FixState σ ε :=
  if orphanProcesses.length = 0 then ⟨world, [], none⟩
  else OrphanProcessCheck.fixLoop env orphanProcesses ⟨world, [], none⟩

/-- Sessions named by the `KillSession` calls of a trace, in order. -/
def killedSessions : List Action → List Str
  | [] => []
  | Action.KillSession sess :: rest => sess :: killedSessions rest
  | _ :: rest => killedSessions rest

/-- PIDs named by the `kill` commands of a trace, in order. -/
def killedPids : List Action → List Int
  | [] => []
  | Action.Kill pid :: rest => pid :: killedPids rest
  | _ :: rest => killedPids rest

/-- Subjects of the audit events of a trace, in order. -/
def loggedSubjects : List Action → List Str
  | [] => []
  | Action.LogFeed _ subject _ :: rest => subject :: loggedSubjects rest
  | _ :: rest => loggedSubjects rest

/-! Section: `internal/cmd/mail_test.go` -/

/-- Modelled from the spec: the declaration of `messageInfo` is not among the
sources; these are the five string fields the test literals set (the spec's
WorkItem `{id, title, assignee, queueName, status}`). -/
structure messageInfo where
  ID : Str
  Title : Str
  Assignee : Str
  QueueName : Str
  Status : Str
deriving DecidableEq, Repr

/-- Text of `fmt.Errorf("message %s is not a queue message (no queue label)", id)`. -/
def errNotQueueMessage (id : Str) : Str :=
  "message ".toList ++ id ++ " is not a queue message (no queue label)".toList

/-- Text of `fmt.Errorf("message %s is not claimed (still in queue)", id)`. -/
def errNotClaimed (id : Str) : Str :=
  "message ".toList ++ id ++ " is not claimed (still in queue)".toList

/-- Text of `fmt.Errorf("message %s was claimed by %s, not %s", id, assignee, caller)`. -/
def errClaimedBy (id assignee caller : Str) : Str :=
  "message ".toList ++ id ++ " was claimed by ".toList ++ assignee ++ ", not ".toList ++ caller

/-- Go `validateRelease`.  The result is `none` for a `nil` error and
`some text` for an error whose `Error()` is `text`. -/
def validateRelease (msgInfo : messageInfo) (caller : Str) : Option Str :=
  if msgInfo.QueueName = [] then
    some (errNotQueueMessage msgInfo.ID)
  else if msgInfo.Assignee ≠ caller then
    if HasPrefix msgInfo.Assignee "queue:".toList = true then
      some (errNotClaimed msgInfo.ID)
    else
      some (errClaimedBy msgInfo.ID msgInfo.Assignee caller)
  else
    none

/-! Section: Names and traces used to state the properties -/

/-- The session name `gt-<rig>-crew-<name>` of the comment on `isCrewSession`. -/
def crewSessionName (rig name : Str) : Str :=
  "gt-".toList ++ rig ++ "-crew-".toList ++ name

/-- The calls of a pass that treats every session of `targets`: for each one,
in order, the audit event and then the kill. -/
def sessionFixCalls : List Str → List Action
  | [] => []
  | sess :: rest =>
    Action.LogFeed EventType.TypeSessionDeath sess (sessionDeath sess) ::
      Action.KillSession sess :: sessionFixCalls rest

/-- The calls of a pass that treats every process of `targets`: for each one,
in order, the audit event and then the kill. -/
def processFixCalls : List processInfo → List Action
  | [] => []
  | proc :: rest =>
    Action.LogFeed EventType.TypeSessionDeath (pidSubject proc.pid) (processDeath proc.pid) ::
      Action.Kill proc.pid :: processFixCalls rest

/-- Collaborators for the worked examples: the world counts the calls made so
far, every audit append fails, and a kill fails when issued as an odd-numbered
call of the pass. -/
def flakyCollaborators : Collaborators Nat Str :=
  ⟨fun _ _ _ w => (some "feed unavailable".toList, w + 1),
   fun sess w => (if w % 2 = 1 then some ("no session ".toList ++ sess) else none, w + 1),
   fun pid w => (if w % 2 = 1 then some ("no process ".toList ++ sprintfD pid) else none, w + 1)⟩

/-- A cached orphan list for the worked examples: a crew session between two
sessions of a rig that no longer exists. -/
def sampleOrphans : List Str :=
  ["gt-oldrig-witness".toList, "gt-gastown-crew-joe".toList, "gt-oldrig-nux".toList]

/-- A cached process list for the worked examples: a personal session between
two fleet processes. -/
def sampleProcesses : List processInfo :=
  [⟨4101, 1, "claude".toList, "claude --dangerously-skip-permissions".toList, true⟩,
   ⟨4102, 1, "claude".toList, "claude".toList, false⟩,
   ⟨4103, 77, "codex".toList, "codex --dangerously-skip-permissions".toList, true⟩]

/-- The work item of the test case "caller matches assignee - valid release". -/
def claimedItem : messageInfo :=
  ⟨"hq-test1".toList, "Test Message".toList, "gastown/polecats/nux".toList,
   "work/gastown".toList, "in_progress".toList⟩

/-- The work item of the test case "message still in queue - not claimed". -/
def unclaimedItem : messageInfo :=
  ⟨"hq-test2".toList, "Test Message".toList, "queue:work/gastown".toList,
   "work/gastown".toList, "open".toList⟩

/-- The work item of the test case "claimed by different worker". -/
def otherItem : messageInfo :=
  ⟨"hq-test3".toList, "Test Message".toList, "gastown/polecats/other".toList,
   "work/gastown".toList, "in_progress".toList⟩

/-- The work item of the test case "not a queue message". -/
def plainItem : messageInfo :=
  ⟨"hq-test4".toList, "Test Message".toList, "gastown/polecats/nux".toList,
   [], "open".toList⟩


/-! Section: `OrphanSessionCheck.Run` and `OrphanProcessCheck.Run` -/

/-- Modelled from the spec: the declaration of the check status is not among
the sources; these are the two values `Run` assigns. -/
inductive CheckStatus where
  | StatusOK
  | StatusWarning
deriving DecidableEq, Repr

/-- Modelled from the spec: the declaration of `CheckResult` is not among the
sources; these are the five fields the two `Run` methods set (an unset string
is empty, an unset slice is empty). -/
structure CheckResult where
  Name : Str
  Status : CheckStatus
  Message : Str
  Details : List Str
  FixHint : Str
deriving DecidableEq, Repr

/-- Go `fmt.Sprintf("%d", len(xs))`. -/
def sprintfLen (n : Nat) : Str :=
  sprintfD (Int.ofNat n)

/-- Body of `for _, sess := range sessions` in `(*OrphanSessionCheck).Run`, on
the pair of the Go locals `orphans` and `validCount`. -/
def OrphanSessionCheck.scanSessions (validRigs : List Str) (mayorSession deaconSession : Str) :
    List Str → List Str × Nat → List Str × Nat
  | [], acc => acc
  | sess :: rest, acc =>
    if sess = [] then
      OrphanSessionCheck.scanSessions validRigs mayorSession deaconSession rest acc
    else if ¬ HasPrefix sess "gt-".toList = true then
      OrphanSessionCheck.scanSessions validRigs mayorSession deaconSession rest acc
    else if OrphanSessionCheck.isValidSession sess validRigs mayorSession deaconSession = true then
      OrphanSessionCheck.scanSessions validRigs mayorSession deaconSession rest
        (acc.1, acc.2 + 1)
    else
      OrphanSessionCheck.scanSessions validRigs mayorSession deaconSession rest
        (acc.1 ++ [sess], acc.2)

/-- Go `(*OrphanSessionCheck).Run`.  `listed` is the answer of
`lister.ListSessions()`, `validRigs` the answer of `c.getValidRigs`,
`mayorSession` and `deaconSession` the answers of `session.MayorSessionName()`
and `session.DeaconSessionName()`, and `orphanSessions` the field
`c.orphanSessions` before the call.  The result is the `CheckResult` and the
field `c.orphanSessions` after the call. -/
def OrphanSessionCheck.Run (listed : Except Str (List Str)) (validRigs : List Str)
    (mayorSession deaconSession : Str) (orphanSessions : List Str) :
    CheckResult × List Str :=
  match listed with
  | Except.error err =>
    (⟨"orphan-sessions".toList, CheckStatus.StatusWarning,
      "Could not list tmux sessions".toList, [err], []⟩, orphanSessions)
  | Except.ok sessions =>
    if sessions.length = 0 then
      (⟨"orphan-sessions".toList, CheckStatus.StatusOK,
        "No tmux sessions found".toList, [], []⟩, orphanSessions)
    else
      let scan := OrphanSessionCheck.scanSessions validRigs mayorSession deaconSession
        sessions ([], 0)
      let orphans := scan.1
      let validCount := scan.2
      if orphans.length = 0 then
        (⟨"orphan-sessions".toList, CheckStatus.StatusOK,
          "All ".toList ++ sprintfLen validCount ++ " Gas Town sessions are valid".toList,
          [], []⟩, orphans)
      else
        (⟨"orphan-sessions".toList, CheckStatus.StatusWarning,
          "Found ".toList ++ sprintfLen orphans.length ++ " orphaned session(s)".toList,
          orphans.map (fun session => "Orphan: ".toList ++ session),
          "Run 'gt doctor --fix' to kill orphaned sessions".toList⟩, orphans)

/-- Number of values of a Go `int` (64 bits) that are greater than 1, plus
two: no ancestry walk visits more PIDs than this. -/
def maxWalk : Nat := 2 ^ 63

/-- Go `fmt.Sscanf(text, "%d", &nextPPID)` on the integer the text denotes:
storing into a 64-bit `int` fails when the value does not fit. -/
def scanInt (n : Int) : Option Int :=
  if -(2 : Int) ^ 63 ≤ n ∧ n < (2 : Int) ^ 63 then some n else none

/-- The `for currentPPID > 1 && !visited[currentPPID]` loop of
`isOrphanProcess`.  `parentOf pid` is the integer printed by
`ps -p pid -o ppid=`, or `none` when the command fails or prints no integer.
`steps` bounds the number of iterations; the result is `none` only when the
bound is used up. -/
def ancestryWalk (parentOf : Int → Option Int) (tmuxPIDs : Int → Bool) :
    Nat → Int → List Int → Option Bool
  | 0, _, _ => none
  | steps + 1, currentPPID, visited =>
    if 1 < currentPPID ∧ currentPPID ∉ visited then
      if tmuxPIDs currentPPID = true then some false
      else
        match (parentOf currentPPID).bind scanInt with
        | none => some true
        | some nextPPID => ancestryWalk parentOf tmuxPIDs steps nextPPID (currentPPID :: visited)
    else some true

/-- Go `(*OrphanProcessCheck).isOrphanProcess`.  The walk is given `maxWalk`
steps, which it never uses up (`ancestryWalk_terminates`), so the default is
never taken. -/
def OrphanProcessCheck.isOrphanProcess (parentOf : Int → Option Int) (proc : processInfo)
    (tmuxPIDs : Int → Bool) : Bool :=
  (ancestryWalk parentOf tmuxPIDs maxWalk proc.ppid []).getD true

/-- The Go locals `insideTmux`, `orphanedGasTown` and `orphanedPersonal` of
`(*OrphanProcessCheck).Run`. -/
structure processScan where
  insideTmux : Nat
  orphanedGasTown : List processInfo
  orphanedPersonal : List processInfo
deriving DecidableEq, Repr

/-- Body of `for _, proc := range runtimeProcs` in `(*OrphanProcessCheck).Run`. -/
def OrphanProcessCheck.categorize (parentOf : Int → Option Int) (tmuxPIDs : Int → Bool) :
    List processInfo → processScan → processScan
  | [], acc => acc
  | proc :: rest, acc =>
    if OrphanProcessCheck.isOrphanProcess parentOf proc tmuxPIDs = true then
      if proc.isGasTown = true then
        OrphanProcessCheck.categorize parentOf tmuxPIDs rest
          ⟨acc.insideTmux, acc.orphanedGasTown ++ [proc], acc.orphanedPersonal⟩
      else
        OrphanProcessCheck.categorize parentOf tmuxPIDs rest
          ⟨acc.insideTmux, acc.orphanedGasTown, acc.orphanedPersonal ++ [proc]⟩
    else
      OrphanProcessCheck.categorize parentOf tmuxPIDs rest
        ⟨acc.insideTmux + 1, acc.orphanedGasTown, acc.orphanedPersonal⟩

/-- The `details` slice built by `(*OrphanProcessCheck).Run`. -/
def OrphanProcessCheck.details (orphanedGasTown orphanedPersonal : List processInfo) :
    List Str :=
  (if 0 < orphanedGasTown.length then
    ("Orphaned Gas Town processes (".toList ++ sprintfLen orphanedGasTown.length ++
        "):".toList) ::
      orphanedGasTown.map (fun proc => "  PID ".toList ++ sprintfD proc.pid ++ ": ".toList ++
        proc.cmd ++ " (will be killed with --fix)".toList)
  else []) ++
  (if 0 < orphanedPersonal.length then
    (if 0 < orphanedGasTown.length then [[]] else []) ++
      ("Personal Claude sessions (".toList ++ sprintfLen orphanedPersonal.length ++
          ") - PROTECTED:".toList) ::
        orphanedPersonal.map (fun proc => "  PID ".toList ++ sprintfD proc.pid ++
          ": ".toList ++ proc.cmd ++ " (personal session, not auto-fixed)".toList)
  else [])

/-- Go `(*OrphanProcessCheck).Run`.  `tmux` is the answer of
`c.getTmuxSessionPIDs()`, `found` the answer of `c.findRuntimeProcesses()`,
`parentOf` the parent lookup of `isOrphanProcess`, and `orphanProcesses` the
field `c.orphanProcesses` before the call.  The result is the `CheckResult`
and the field `c.orphanProcesses` after the call. -/
def OrphanProcessCheck.Run (tmux : Except Str (Int → Bool))
    (found : Except Str (List processInfo)) (parentOf : Int → Option Int)
    (orphanProcesses : List processInfo) : CheckResult × List processInfo :=
  match tmux with
  | Except.error err =>
    (⟨"orphan-processes".toList, CheckStatus.StatusWarning,
      "Could not get tmux session info".toList, [err], []⟩, orphanProcesses)
  | Except.ok tmuxPIDs =>
    match found with
    | Except.error err =>
      (⟨"orphan-processes".toList, CheckStatus.StatusWarning,
        "Could not list runtime processes".toList, [err], []⟩, orphanProcesses)
    | Except.ok runtimeProcs =>
      if runtimeProcs.length = 0 then
        (⟨"orphan-processes".toList, CheckStatus.StatusOK,
          "No runtime processes found".toList, [], []⟩, orphanProcesses)
      else
        let scan := OrphanProcessCheck.categorize parentOf tmuxPIDs runtimeProcs ⟨0, [], []⟩
        let orphanedGasTown := scan.orphanedGasTown
        let orphanedPersonal := scan.orphanedPersonal
        if orphanedGasTown.length = 0 ∧ orphanedPersonal.length = 0 then
          (⟨"orphan-processes".toList, CheckStatus.StatusOK,
            "All ".toList ++ sprintfLen scan.insideTmux ++
              " runtime processes are inside tmux".toList, [], []⟩, orphanedGasTown)
        else
          (⟨"orphan-processes".toList,
            if 0 < orphanedGasTown.length then CheckStatus.StatusWarning
            else CheckStatus.StatusOK,
            ("Found ".toList ++ sprintfLen orphanedGasTown.length ++
                " orphaned Gas Town process(es)".toList) ++
              (if 0 < orphanedPersonal.length then
                ", ".toList ++ sprintfLen orphanedPersonal.length ++
                  " personal session(s) protected".toList
              else []),
            OrphanProcessCheck.details orphanedGasTown orphanedPersonal,
            if 0 < orphanedGasTown.length then
              "Run 'gt doctor --fix' to kill orphaned Gas Town processes".toList
            else []⟩, orphanedGasTown)

/-- Parent lookup of `isOrphanProcess` as the loop uses it: the `ps` query
followed by `Sscanf` into an `int`; `none` is a failed lookup. -/
def lookupParent (parentOf : Int → Option Int) (pid : Int) : Option Int :=
  (parentOf pid).bind scanInt

/-- The ancestry chain of the spec: `ancestor parentOf 0 pid` is `pid`,
`ancestor parentOf 1 pid` its parent, `ancestor parentOf 2 pid` the parent's
parent, and so on; `none` from the first failed lookup on. -/
def ancestor (parentOf : Int → Option Int) : Nat → Int → Option Int
  | 0, pid => some pid
  | k + 1, pid => (lookupParent parentOf pid).bind (ancestor parentOf k)

/-- Some PID of the ancestry chain from `start` is a supervisor PID, and the
chain up to it has no failed lookup, no PID `≤ 1`, no PID of `visited` and no
repeated PID. -/
def reachesSupervisor (parentOf : Int → Option Int) (tmuxPIDs : Int → Bool)
    (start : Int) (visited : List Int) : Prop :=
  ∃ k p, ancestor parentOf k start = some p ∧ tmuxPIDs p = true ∧
    (∀ j, j ≤ k → ∃ q, ancestor parentOf j start = some q ∧ 1 < q ∧ q ∉ visited) ∧
    ∀ i j, i < j → j ≤ k → ancestor parentOf i start ≠ ancestor parentOf j start

/-- A parent lookup for the worked examples: PIDs 5 and 6 are each other's
parent, PID 77 is a child of PID 50, PID 90 is a child of PID 1, and every
other lookup fails. -/
def sampleParents (pid : Int) : Option Int :=
  if pid = 5 then some 6
  else if pid = 6 then some 5
  else if pid = 77 then some 50
  else if pid = 90 then some 1
  else none

/-- A supervisor-PID set for the worked examples: PID 50 only. -/
def sampleTmux (pid : Int) : Bool :=
  pid == 50

/-- The answers of the `KillSession` calls of a pass that treats every session
of `targets` from `world` on, in order: each target's audit append and kill
act on the world left by the targets before it. -/
def sessionKillOutcomes {σ ε : Type} (env : Collaborators σ ε) :
    List Str → σ → List (Option ε)
  | [], _ => []
  | sess :: rest, world =>
    let logged := env.LogFeed EventType.TypeSessionDeath sess (sessionDeath sess) world
    let killed := env.KillSession sess logged.2
    killed.1 :: sessionKillOutcomes env rest killed.2

/-- The answers of the `kill` commands of a pass that treats every process of
`targets` from `world` on, in order. -/
def processKillOutcomes {σ ε : Type} (env : Collaborators σ ε) :
    List processInfo → σ → List (Option ε)
  | [], _ => []
  | proc :: rest, world =>
    let logged := env.LogFeed EventType.TypeSessionDeath (pidSubject proc.pid)
      (processDeath proc.pid) world
    let killed := env.Kill proc.pid logged.2
    killed.1 :: processKillOutcomes env rest killed.2

/-- The last error in a list of answers, `none` when every answer is `nil`. -/
def lastFailure {ε : Type} : List (Option ε) → Option ε
  | [] => none
  | answer :: rest =>
    match lastFailure rest with
    | some e => some e
    | none => answer

/-- The live sessions of the spec's end-to-end scenario. -/
def scenarioSessions : List Str :=
  ["gt-acme-mayor".toList, "gt-acme-witness".toList, "gt-old-rig-witness".toList]

/-- A process list for the worked examples: one personal session whose
parent chain ends at PID 1. -/
def personalOnly : List processInfo :=
  [⟨4200, 90, "claude".toList, "claude".toList, false⟩]

/-- A process list for the worked examples: a fleet process under the
supervisor PID 50, a fleet orphan and a personal orphan. -/
def mixedProcesses : List processInfo :=
  [⟨4301, 77, "claude".toList, "claude --dangerously-skip-permissions".toList, true⟩,
   ⟨4302, 5, "codex".toList, "codex --dangerously-skip-permissions".toList, true⟩,
   ⟨4303, 90, "claude".toList, "claude".toList, false⟩]

/-! Section: Worker patterns of `internal/cmd`, modelled from the spec -/

/-- Go `strings.HasSuffix(s, suffix)`. -/
def HasSuffix (s suffix : Str) : Bool :=
  suffix.isSuffixOf s

/-- Modelled from the spec: `matchWorkerPattern` is not among the sources, only
its test `TestMatchWorkerPattern` is.  This is the spec's
`matches(pattern, callerIdentity)`: an empty pattern never matches and an
empty caller never matches; the pattern `*` matches any non-empty caller; a
pattern that ends in `/*` loses its trailing `*`, and the caller matches iff it
starts with what remains and the rest of the caller after it contains no `/`;
any other pattern must be equal to the caller. -/
def matchWorkerPattern (pattern caller : Str) : Bool :=
  if pattern = [] then false
  else if caller = [] then false
  else if pattern = "*".toList then true
  else if HasSuffix pattern "/*".toList = true then
    let pre := pattern.dropLast
    if HasPrefix caller pre = true then
      !Contains (caller.drop pre.length) "/".toList
    else false
  else decide (pattern = caller)

/-- Modelled from the spec: `isEligibleWorker` is not among the sources, only
its test `TestIsEligibleWorker` is.  The spec's
`isEligibleWorker(caller, patterns)`: true iff the caller matches at least one
pattern of the list, tried in order; a Go `nil` slice and an empty slice are
both the empty list. -/
def isEligibleWorker (caller : Str) : List Str → Bool
  | [] => false
  | pattern :: rest =>
    if matchWorkerPattern pattern caller = true then true
    else isEligibleWorker caller rest

/-- The twelve cases of `TestMatchWorkerPattern`: pattern, caller, wanted
answer. -/
def matchWorkerPatternTests : List (Str × Str × Bool) :=
  [("gastown/polecats/capable".toList, "gastown/polecats/capable".toList, true),
   ("gastown/polecats/toast".toList, "gastown/polecats/capable".toList, false),
   ("gastown/polecats/*".toList, "gastown/polecats/capable".toList, true),
   ("gastown/polecats/*".toList, "gastown/polecats/toast".toList, true),
   ("gastown/polecats/*".toList, "beads/polecats/capable".toList, false),
   ("gastown/polecats/*".toList, "gastown/polecats/sub/capable".toList, false),
   ("gastown/crew/*".toList, "gastown/crew/max".toList, true),
   ("gastown/crew/*".toList, "gastown/polecats/capable".toList, false),
   ("beads/polecats/*".toList, "beads/polecats/capable".toList, true),
   ([], "gastown/polecats/capable".toList, false),
   ("gastown/polecats/*".toList, [], false),
   ("*".toList, "anything".toList, true)]

/-- The six cases of `TestIsEligibleWorker`: caller, patterns, wanted answer. -/
def isEligibleWorkerTests : List (Str × List Str × Bool) :=
  [("gastown/polecats/capable".toList,
      ["gastown/polecats/*".toList, "gastown/crew/*".toList], true),
   ("gastown/crew/max".toList,
      ["gastown/polecats/*".toList, "gastown/crew/*".toList], true),
   ("beads/polecats/capable".toList,
      ["gastown/polecats/*".toList, "gastown/crew/*".toList], false),
   ("gastown/polecats/capable".toList, [], false),
   ("gastown/polecats/capable".toList, [], false),
   ("mayor/".toList, ["mayor/".toList, "gastown/witness".toList], true)]

/-- Collaborators for the worked examples: every audit append fails and every
kill succeeds. -/
def deafFeed : Collaborators Nat Str :=
  ⟨fun _ _ _ w => (some "feed unavailable".toList, w + 1),
   fun _ w => (none, w + 1),
   fun _ w => (none, w + 1)⟩

/-! Section: Lemmas on the `strings` model -/

theorem Cut_eq_none_iff (sep : Char) (s : Str) : Cut sep s = none ↔ sep ∉ s := by
  induction s with
  | nil => simp [Cut]
  | cons c cs ih =>
    by_cases hc : c = sep
    · simp [Cut, hc]
    · have hne : ¬ sep = c := fun h => hc h.symm
      cases hcut : Cut sep cs with
      | none => simp [Cut, hc, hcut, hne, ih.mp hcut]
      | some p =>
        have : ¬ sep ∉ cs := fun h => by rw [ih.mpr h] at hcut; cases hcut
        simp [Cut, hc, hcut]
        intro _
        exact not_not.mp this

theorem Cut_append (sep : Char) (a b : Str) (ha : sep ∉ a) :
    Cut sep (a ++ sep :: b) = some (a, b) := by
  induction a with
  | nil => simp [Cut]
  | cons c cs ih =>
    have hc : ¬ c = sep := fun h => ha (by simp [h])
    have hcs : sep ∉ cs := fun h => ha (by simp [h])
    simp [Cut, hc, ih hcs]

theorem Cut_eq_some (sep : Char) (s a b : Str) (h : Cut sep s = some (a, b)) :
    s = a ++ sep :: b ∧ sep ∉ a := by
  induction s generalizing a with
  | nil => simp [Cut] at h
  | cons c cs ih =>
    by_cases hc : c = sep
    · simp [Cut, hc] at h
      obtain ⟨rfl, rfl⟩ := h
      simp [hc]
    · cases hcut : Cut sep cs with
      | none => simp [Cut, hc, hcut] at h
      | some p =>
        obtain ⟨a1, b1⟩ := p
        simp [Cut, hc, hcut] at h
        obtain ⟨rfl, rfl⟩ := h
        obtain ⟨h1, h2⟩ := ih a1 hcut
        refine ⟨by rw [h1]; simp, ?_⟩
        intro hmem
        rcases List.mem_cons.mp hmem with h3 | h3
        · exact hc h3.symm
        · exact h2 h3

theorem Count_append (sep : Char) (a b : Str) :
    Count sep (a ++ b) = Count sep a + Count sep b := by
  induction a with
  | nil => simp [Count]
  | cons c cs ih =>
    by_cases hc : c = sep
    · simp [Count, hc, ih]; omega
    · simp [Count, hc, ih]

theorem Count_eq_zero (sep : Char) (a : Str) (ha : sep ∉ a) : Count sep a = 0 := by
  induction a with
  | nil => simp [Count]
  | cons c cs ih =>
    have hc : ¬ c = sep := fun h => ha (by simp [h])
    have hcs : sep ∉ cs := fun h => ha (by simp [h])
    simp [Count, hc, ih hcs]

theorem Count_pos_of_mem (sep : Char) (a : Str) (ha : sep ∈ a) : 0 < Count sep a := by
  induction a with
  | nil => simp at ha
  | cons c cs ih =>
    by_cases hc : c = sep
    · simp [Count, hc]
    · have : sep ∈ cs := by
        rcases List.mem_cons.mp ha with h | h
        · exact absurd h.symm hc
        · exact h
      simp [Count, hc, ih this]

theorem Count_cut (sep : Char) (a b : Str) (ha : sep ∉ a) :
    Count sep (a ++ sep :: b) = Count sep b + 1 := by
  rw [Count_append, Count_eq_zero sep a ha]
  simp [Count]

theorem SplitN_no_sep (sep : Char) (n : Nat) (a : Str) (ha : sep ∉ a) :
    SplitN sep (n + 1) a = [a] := by
  cases n with
  | zero => simp [SplitN]
  | succ n => simp [SplitN, (Cut_eq_none_iff sep a).mpr ha]

theorem SplitN_cut (sep : Char) (n : Nat) (a b : Str) (ha : sep ∉ a) :
    SplitN sep (n + 2) (a ++ sep :: b) = a :: SplitN sep (n + 1) b := by
  simp [SplitN, Cut_append sep a b ha]

theorem Split_no_sep (sep : Char) (a : Str) (ha : sep ∉ a) : Split sep a = [a] := by
  unfold Split
  exact SplitN_no_sep sep _ a ha

theorem Split_cut (sep : Char) (a b : Str) (ha : sep ∉ a) :
    Split sep (a ++ sep :: b) = a :: Split sep b := by
  unfold Split
  rw [Count_cut sep a b ha, SplitN_cut sep _ a b ha]

theorem Split_ne_nil (sep : Char) (s : Str) : Split sep s ≠ [] := by
  unfold Split
  cases h : Count sep s with
  | zero => simp [SplitN]
  | succ n =>
    cases hc : Cut sep s with
    | none => simp [SplitN, hc]
    | some p => simp [SplitN, hc]

theorem Split_cons (sep c : Char) (cs : Str) :
    Split sep (c :: cs) =
      if c = sep then [] :: Split sep cs else (Split sep cs).modifyHead (List.cons c) := by
  by_cases hc : c = sep
  · subst hc
    have := Split_cut c [] cs (by simp)
    simpa using this
  · simp only [hc, if_false]
    by_cases hmem : sep ∈ cs
    · cases hcut : Cut sep cs with
      | none => exact absurd hmem ((Cut_eq_none_iff sep cs).mp hcut)
      | some p =>
        obtain ⟨a, b⟩ := p
        obtain ⟨h1, h2⟩ := Cut_eq_some sep cs a b hcut
        have h3 : sep ∉ c :: a := by
          intro h
          rcases List.mem_cons.mp h with h | h
          · exact hc h.symm
          · exact h2 h
        have h4 : c :: cs = (c :: a) ++ sep :: b := by rw [h1]; rfl
        rw [h4, Split_cut sep (c :: a) b h3, h1, Split_cut sep a b h2]
        rfl
    · have h3 : sep ∉ c :: cs := by
        intro h
        rcases List.mem_cons.mp h with h | h
        · exact hc h.symm
        · exact hmem h
      rw [Split_no_sep sep _ h3, Split_no_sep sep _ hmem]
      rfl

theorem Split_eq_splitOn (sep : Char) (s : Str) : Split sep s = List.splitOn sep s := by
  induction s with
  | nil => simp [Split, Count, SplitN, List.splitOn]
  | cons c cs ih =>
    rw [Split_cons, List.splitOn, List.splitOnP_cons, ← List.splitOn, ← ih]
    by_cases hc : c = sep <;> simp [hc]


/-! Section: Lemmas on traces and the fix loops -/

theorem killedSessions_append (a b : List Action) :
    killedSessions (a ++ b) = killedSessions a ++ killedSessions b := by
  induction a with
  | nil => rfl
  | cons x xs ih => cases x <;> simp [killedSessions, ih]

theorem loggedSubjects_append (a b : List Action) :
    loggedSubjects (a ++ b) = loggedSubjects a ++ loggedSubjects b := by
  induction a with
  | nil => rfl
  | cons x xs ih => cases x <;> simp [loggedSubjects, ih]

theorem killedPids_append (a b : List Action) :
    killedPids (a ++ b) = killedPids a ++ killedPids b := by
  induction a with
  | nil => rfl
  | cons x xs ih => cases x <;> simp [killedPids, ih]

theorem killedSessions_sessionFixCalls (l : List Str) :
    killedSessions (sessionFixCalls l) = l := by
  induction l with
  | nil => rfl
  | cons s rest ih => simp [sessionFixCalls, killedSessions, ih]

theorem loggedSubjects_sessionFixCalls (l : List Str) :
    loggedSubjects (sessionFixCalls l) = l := by
  induction l with
  | nil => rfl
  | cons s rest ih => simp [sessionFixCalls, loggedSubjects, ih]

theorem killedPids_processFixCalls (l : List processInfo) :
    killedPids (processFixCalls l) = l.map (fun p => p.pid) := by
  induction l with
  | nil => rfl
  | cons p rest ih => simp [processFixCalls, killedPids, ih]

theorem loggedSubjects_processFixCalls (l : List processInfo) :
    loggedSubjects (processFixCalls l) = l.map (fun p => pidSubject p.pid) := by
  induction l with
  | nil => rfl
  | cons p rest ih => simp [processFixCalls, loggedSubjects, ih]

theorem sessionFixLoop_trace {σ ε : Type} (env : Collaborators σ ε) (l : List Str)
    (st : FixState σ ε) :
    (OrphanSessionCheck.fixLoop env l st).trace =
      st.trace ++ sessionFixCalls (l.filter (fun s => !isCrewSession s)) := by
  induction l generalizing st with
  | nil => simp [OrphanSessionCheck.fixLoop, sessionFixCalls]
  | cons s rest ih =>
    by_cases hs : isCrewSession s = true
    · simp [OrphanSessionCheck.fixLoop, hs, ih]
    · simp [OrphanSessionCheck.fixLoop, hs, ih, sessionFixCalls]

theorem sessionFixLoop_filter {σ ε : Type} (env : Collaborators σ ε) (l : List Str)
    (st : FixState σ ε) :
    OrphanSessionCheck.fixLoop env (l.filter (fun s => !isCrewSession s)) st =
      OrphanSessionCheck.fixLoop env l st := by
  induction l generalizing st with
  | nil => rfl
  | cons s rest ih =>
    by_cases hs : isCrewSession s = true
    · simp [OrphanSessionCheck.fixLoop, hs, ih]
    · simp [OrphanSessionCheck.fixLoop, hs, ih]

theorem sessionFix_trace {σ ε : Type} (env : Collaborators σ ε) (l : List Str) (world : σ) :
    (OrphanSessionCheck.Fix env l world).trace =
      sessionFixCalls (l.filter (fun s => !isCrewSession s)) := by
  unfold OrphanSessionCheck.Fix
  split
  · next h =>
    have : l = [] := List.length_eq_zero.mp h
    subst this
    rfl
  · rw [sessionFixLoop_trace]
    rfl

theorem sessionFix_filter {σ ε : Type} (env : Collaborators σ ε) (l : List Str) (world : σ) :
    OrphanSessionCheck.Fix env (l.filter (fun s => !isCrewSession s)) world =
      OrphanSessionCheck.Fix env l world := by
  unfold OrphanSessionCheck.Fix
  rw [sessionFixLoop_filter]
  by_cases h1 : (l.filter (fun s => !isCrewSession s)).length = 0
  · have h2 : l.filter (fun s => !isCrewSession s) = [] := List.length_eq_zero.mp h1
    by_cases h3 : l.length = 0
    · simp [h1, h3]
    · rw [if_pos h1, if_neg h3, ← sessionFixLoop_filter, h2]
      rfl
  · have h3 : ¬ l.length = 0 := by
      intro h
      have : l = [] := List.length_eq_zero.mp h
      subst this
      exact h1 rfl
    rw [if_neg h1, if_neg h3]

theorem processFixLoop_trace {σ ε : Type} (env : Collaborators σ ε) (l : List processInfo)
    (st : FixState σ ε) :
    (OrphanProcessCheck.fixLoop env l st).trace =
      st.trace ++ processFixCalls (l.filter (fun p => p.isGasTown)) := by
  induction l generalizing st with
  | nil => simp [OrphanProcessCheck.fixLoop, processFixCalls]
  | cons p rest ih =>
    by_cases hp : p.isGasTown = true
    · simp [OrphanProcessCheck.fixLoop, hp, ih, processFixCalls]
    · simp [OrphanProcessCheck.fixLoop, hp, ih]

theorem processFixLoop_filter {σ ε : Type} (env : Collaborators σ ε) (l : List processInfo)
    (st : FixState σ ε) :
    OrphanProcessCheck.fixLoop env (l.filter (fun p => p.isGasTown)) st =
      OrphanProcessCheck.fixLoop env l st := by
  induction l generalizing st with
  | nil => rfl
  | cons p rest ih =>
    by_cases hp : p.isGasTown = true
    · simp [OrphanProcessCheck.fixLoop, hp, ih]
    · simp [OrphanProcessCheck.fixLoop, hp, ih]

theorem processFix_trace {σ ε : Type} (env : Collaborators σ ε) (l : List processInfo)
    (world : σ) :
    (OrphanProcessCheck.Fix env l world).trace =
      processFixCalls (l.filter (fun p => p.isGasTown)) := by
  unfold OrphanProcessCheck.Fix
  split
  · next h =>
    have : l = [] := List.length_eq_zero.mp h
    subst this
    rfl
  · rw [processFixLoop_trace]
    rfl

theorem processFix_filter {σ ε : Type} (env : Collaborators σ ε) (l : List processInfo)
    (world : σ) :
    OrphanProcessCheck.Fix env (l.filter (fun p => p.isGasTown)) world =
      OrphanProcessCheck.Fix env l world := by
  unfold OrphanProcessCheck.Fix
  rw [processFixLoop_filter]
  by_cases h1 : (l.filter (fun p => p.isGasTown)).length = 0
  · have h2 : l.filter (fun p => p.isGasTown) = [] := List.length_eq_zero.mp h1
    by_cases h3 : l.length = 0
    · simp [h1, h3]
    · rw [if_pos h1, if_neg h3, ← processFixLoop_filter, h2]
      rfl
  · have h3 : ¬ l.length = 0 := by
      intro h
      have : l = [] := List.length_eq_zero.mp h
      subst this
      exact h1 rfl
    rw [if_neg h1, if_neg h3]


/-! Section: Lemmas on session names -/

theorem crewSessionName_split (rig name : Str) (hr : '-' ∉ rig) :
    Split '-' (crewSessionName rig name) =
      "gt".toList :: rig :: "crew".toList :: Split '-' name := by
  have h : crewSessionName rig name =
      "gt".toList ++ '-' :: (rig ++ '-' :: ("crew".toList ++ '-' :: name)) := by
    simp [crewSessionName]
  rw [h, Split_cut '-' _ _ (by decide), Split_cut '-' _ _ hr, Split_cut '-' _ _ (by decide)]

theorem isCrewSession_crewSessionName (rig name : Str) (hr : '-' ∉ rig) :
    isCrewSession (crewSessionName rig name) = true := by
  have hlen : 1 ≤ (Split '-' name).length := by
    cases h : Split '-' name with
    | nil => exact absurd h (Split_ne_nil '-' name)
    | cons x xs => simp
  simp only [isCrewSession, crewSessionName_split rig name hr]
  simp
  omega

theorem rigFound_iff (rigName : Str) (validRigs : List Str) :
    rigFound rigName validRigs = true ↔ rigName ∈ validRigs := by
  induction validRigs with
  | nil => simp [rigFound]
  | cons r rest ih =>
    by_cases hr : r = rigName
    · simp [rigFound, hr]
    · have : ¬ rigName = r := fun h => hr h.symm
      simp [rigFound, hr, ih, this]

theorem SplitN_three (a b c : Str) (ha : '-' ∉ a) (hb : '-' ∉ b) :
    SplitN '-' 3 (a ++ '-' :: (b ++ '-' :: c)) = [a, b, c] := by
  rw [SplitN_cut '-' 1 a _ ha, SplitN_cut '-' 0 b _ hb]
  rfl

theorem SplitN_three_short (s : Str) (h : Count '-' s < 2) :
    (SplitN '-' 3 s).length < 3 := by
  cases hcut : Cut '-' s with
  | none => simp [SplitN, hcut]
  | some p =>
    obtain ⟨a, b⟩ := p
    obtain ⟨h1, h2⟩ := Cut_eq_some '-' s a b hcut
    have hb : '-' ∉ b := by
      intro hmem
      have := Count_pos_of_mem '-' b hmem
      rw [h1, Count_cut '-' a b h2] at h
      omega
    simp [SplitN, hcut, (Cut_eq_none_iff '-' b).mpr hb]

theorem isValidSession_of_three (a b c : Str) (validRigs : List Str)
    (mayorSession deaconSession : Str) (ha : '-' ∉ a) (hb : '-' ∉ b) :
    OrphanSessionCheck.isValidSession (a ++ '-' :: (b ++ '-' :: c)) validRigs
        mayorSession deaconSession = true ↔
      (mayorSession ≠ [] ∧ a ++ '-' :: (b ++ '-' :: c) = mayorSession) ∨
      (deaconSession ≠ [] ∧ a ++ '-' :: (b ++ '-' :: c) = deaconSession) ∨
      b ∈ validRigs := by
  simp only [OrphanSessionCheck.isValidSession, SplitN_three a b c ha hb]
  by_cases hm : mayorSession ≠ [] ∧ a ++ '-' :: (b ++ '-' :: c) = mayorSession
  · simp [hm]
  · by_cases hd : deaconSession ≠ [] ∧ a ++ '-' :: (b ++ '-' :: c) = deaconSession
    · simp [hd]
    · by_cases hr : b ∈ validRigs
      · simp [hm, hd, hr, (rigFound_iff b validRigs).mpr hr]
      · have : ¬ rigFound b validRigs = true := fun h => hr ((rigFound_iff b validRigs).mp h)
        simp [hm, hd, hr, this]

/-! Section: Lemmas on the release errors -/

theorem Contains_iff (s substr : Str) : Contains s substr = true ↔ substr <:+: s := by
  simp [Contains]

theorem errNotClaimed_ne_errClaimedBy (id assignee caller : Str) :
    errNotClaimed id ≠ errClaimedBy id assignee caller := by
  intro h
  simp [errNotClaimed, errClaimedBy] at h

theorem errNotQueueMessage_ne_errNotClaimed (id : Str) :
    errNotQueueMessage id ≠ errNotClaimed id := by
  intro h
  simp [errNotQueueMessage, errNotClaimed] at h

theorem errNotQueueMessage_ne_errClaimedBy (id assignee caller : Str) :
    errNotQueueMessage id ≠ errClaimedBy id assignee caller := by
  intro h
  simp [errNotQueueMessage, errClaimedBy] at h

theorem errNotQueueMessage_contains (id : Str) :
    Contains (errNotQueueMessage id) "not a queue message".toList = true ∧
      Contains (errNotQueueMessage id) id = true := by
  constructor
  · refine (Contains_iff _ _).mpr
      ⟨"message ".toList ++ id ++ " is ".toList, " (no queue label)".toList, ?_⟩
    simp only [errNotQueueMessage, List.append_assoc]
    rfl
  · exact (Contains_iff _ _).mpr
      ⟨"message ".toList, " is not a queue message (no queue label)".toList, rfl⟩

theorem errNotClaimed_contains (id : Str) :
    Contains (errNotClaimed id) "not claimed".toList = true := by
  refine (Contains_iff _ _).mpr
    ⟨"message ".toList ++ id ++ " is ".toList, " (still in queue)".toList, ?_⟩
  simp only [errNotClaimed, List.append_assoc]
  rfl

theorem errClaimedBy_contains (id assignee caller : Str) :
    Contains (errClaimedBy id assignee caller) ("was claimed by ".toList ++ assignee) = true := by
  refine (Contains_iff _ _).mpr
    ⟨"message ".toList ++ id ++ " ".toList, ", not ".toList ++ caller, ?_⟩
  simp only [errClaimedBy, List.append_assoc]
  rfl

/-! Section: The three outcomes of `validateRelease` -/

theorem validateRelease_of_no_queue (msgInfo : messageInfo) (caller : Str)
    (hq : msgInfo.QueueName = []) :
    validateRelease msgInfo caller = some (errNotQueueMessage msgInfo.ID) := by
  unfold validateRelease
  rw [if_pos hq]

theorem validateRelease_of_sentinel (msgInfo : messageInfo) (caller : Str)
    (hq : msgInfo.QueueName ≠ []) (ha : msgInfo.Assignee ≠ caller)
    (hp : HasPrefix msgInfo.Assignee "queue:".toList = true) :
    validateRelease msgInfo caller = some (errNotClaimed msgInfo.ID) := by
  unfold validateRelease
  rw [if_neg hq, if_pos ha, if_pos hp]

theorem validateRelease_of_holder (msgInfo : messageInfo) (caller : Str)
    (hq : msgInfo.QueueName ≠ []) (ha : msgInfo.Assignee ≠ caller)
    (hp : ¬ HasPrefix msgInfo.Assignee "queue:".toList = true) :
    validateRelease msgInfo caller =
      some (errClaimedBy msgInfo.ID msgInfo.Assignee caller) := by
  unfold validateRelease
  rw [if_neg hq, if_pos ha, if_neg hp]

theorem validateRelease_of_same (msgInfo : messageInfo) (caller : Str)
    (hq : msgInfo.QueueName ≠ []) (ha : msgInfo.Assignee = caller) :
    validateRelease msgInfo caller = none := by
  unfold validateRelease
  rw [if_neg hq, if_neg (not_not.mpr ha)]


/-! Section: Remediation safeguards -/

/-- C1: `OrphanSessionCheck.Fix` never acts on a crew-pattern session.  For
every cached orphan list, every collaborator behaviour and every starting
world, the sessions killed are exactly the cached orphans, in order, for which
`isCrewSession` is false, and so are the subjects of the audit events; the
whole outcome is the one of the list with the crew sessions removed; and no
session with `isCrewSession = true` is killed or is the subject of an event. -/
theorem sessionFix_never_acts_on_crew {σ ε : Type} (env : Collaborators σ ε)
    (orphanSessions : List Str) (world : σ) :
    killedSessions (OrphanSessionCheck.Fix env orphanSessions world).trace =
        orphanSessions.filter (fun s => !isCrewSession s) ∧
      loggedSubjects (OrphanSessionCheck.Fix env orphanSessions world).trace =
        orphanSessions.filter (fun s => !isCrewSession s) ∧
      OrphanSessionCheck.Fix env orphanSessions world =
        OrphanSessionCheck.Fix env (orphanSessions.filter (fun s => !isCrewSession s)) world ∧
      ∀ s, isCrewSession s = true →
        s ∉ killedSessions (OrphanSessionCheck.Fix env orphanSessions world).trace ∧
        s ∉ loggedSubjects (OrphanSessionCheck.Fix env orphanSessions world).trace := by
  have hk : killedSessions (OrphanSessionCheck.Fix env orphanSessions world).trace =
      orphanSessions.filter (fun s => !isCrewSession s) := by
    rw [sessionFix_trace, killedSessions_sessionFixCalls]
  have hl : loggedSubjects (OrphanSessionCheck.Fix env orphanSessions world).trace =
      orphanSessions.filter (fun s => !isCrewSession s) := by
    rw [sessionFix_trace, loggedSubjects_sessionFixCalls]
  refine ⟨hk, hl, (sessionFix_filter env orphanSessions world).symm, ?_⟩
  intro s hs
  rw [hk, hl]
  have : s ∉ orphanSessions.filter (fun s => !isCrewSession s) := by
    intro hmem
    have := (List.mem_filter.mp hmem).2
    simp [hs] at this
  exact ⟨this, this⟩

/-- Worked example of C1: with `gt-gastown-crew-joe` cached as an orphan, it is
not among the sessions killed. -/
theorem sessionFix_never_acts_on_crew_witness :
    isCrewSession "gt-gastown-crew-joe".toList = true ∧
      "gt-gastown-crew-joe".toList ∉
        killedSessions (OrphanSessionCheck.Fix flakyCollaborators sampleOrphans 0).trace :=
  ⟨by decide,
   ((sessionFix_never_acts_on_crew flakyCollaborators sampleOrphans 0).2.2.2
      "gt-gastown-crew-joe".toList (by decide)).1⟩

/-- C2: `OrphanProcessCheck.Fix` kills a process only if its `isGasTown` flag
is true.  For every cached process list, the PIDs killed are exactly those of
the entries with `isGasTown = true`, in order, and the audit subjects are their
`pid-<pid>` names; the whole outcome is the one of the list with the unmanaged
entries removed; every PID killed belongs to a managed entry; and a list with
no managed entry produces no call at all. -/
theorem processFix_kills_only_managed {σ ε : Type} (env : Collaborators σ ε)
    (orphanProcesses : List processInfo) (world : σ) :
    killedPids (OrphanProcessCheck.Fix env orphanProcesses world).trace =
        (orphanProcesses.filter (fun p => p.isGasTown)).map (fun p => p.pid) ∧
      loggedSubjects (OrphanProcessCheck.Fix env orphanProcesses world).trace =
        (orphanProcesses.filter (fun p => p.isGasTown)).map (fun p => pidSubject p.pid) ∧
      OrphanProcessCheck.Fix env orphanProcesses world =
        OrphanProcessCheck.Fix env (orphanProcesses.filter (fun p => p.isGasTown)) world ∧
      (∀ pid ∈ killedPids (OrphanProcessCheck.Fix env orphanProcesses world).trace,
        ∃ p ∈ orphanProcesses, p.pid = pid ∧ p.isGasTown = true) ∧
      ((∀ p ∈ orphanProcesses, p.isGasTown = false) →
        (OrphanProcessCheck.Fix env orphanProcesses world).trace = []) := by
  have hk : killedPids (OrphanProcessCheck.Fix env orphanProcesses world).trace =
      (orphanProcesses.filter (fun p => p.isGasTown)).map (fun p => p.pid) := by
    rw [processFix_trace, killedPids_processFixCalls]
  have hl : loggedSubjects (OrphanProcessCheck.Fix env orphanProcesses world).trace =
      (orphanProcesses.filter (fun p => p.isGasTown)).map (fun p => pidSubject p.pid) := by
    rw [processFix_trace, loggedSubjects_processFixCalls]
  refine ⟨hk, hl, (processFix_filter env orphanProcesses world).symm, ?_, ?_⟩
  · intro pid hpid
    rw [hk] at hpid
    obtain ⟨p, hp, rfl⟩ := List.mem_map.mp hpid
    obtain ⟨h1, h2⟩ := List.mem_filter.mp hp
    exact ⟨p, h1, rfl, h2⟩
  · intro hall
    have : orphanProcesses.filter (fun p => p.isGasTown) = [] := by
      apply List.filter_eq_nil_iff.mpr
      intro p hp
      simp [hall p hp]
    rw [processFix_trace, this]
    rfl

/-- Worked example of C2: PID 4103 is killed and belongs to a managed entry. -/
theorem processFix_kills_only_managed_witness :
    (4103 : Int) ∈ killedPids (OrphanProcessCheck.Fix flakyCollaborators sampleProcesses 0).trace ∧
      ∃ p ∈ sampleProcesses, p.pid = 4103 ∧ p.isGasTown = true :=
  ⟨by decide,
   (processFix_kills_only_managed flakyCollaborators sampleProcesses 0).2.2.2.1 4103
     (by decide)⟩

/-- C3: crew sessions are meant to be always protected, and the code breaks
that for a rig whose name contains a hyphen.  With the rig `my-rig` known and
the crew session `gt-my-rig-crew-joe` of its member `joe` alive,
`isValidSession` reads the rig as `my` and `OrphanSessionCheck.Run` caches the
session as an orphan; `isCrewSession` is false on it, because its third
segment is `rig`; and `OrphanSessionCheck.Fix` logs its death and kills it. -/
theorem crew_of_hyphenated_rig_is_killed :
    "my-rig".toList ≠ [] ∧ "joe".toList ≠ [] ∧
      crewSessionName "my-rig".toList "joe".toList = "gt-my-rig-crew-joe".toList ∧
      isCrewSession (crewSessionName "my-rig".toList "joe".toList) = false ∧
      killedSessions (OrphanSessionCheck.Fix flakyCollaborators
        [crewSessionName "my-rig".toList "joe".toList] 0).trace =
        ["gt-my-rig-crew-joe".toList] ∧
      Split '-' "gt-my-rig-crew-joe".toList =
        ["gt".toList, "my".toList, "rig".toList, "crew".toList, "joe".toList] ∧
      OrphanSessionCheck.isValidSession "gt-my-rig-crew-joe".toList ["my-rig".toList]
        "gt-acme-mayor".toList "gt-acme-deacon".toList = false ∧
      (OrphanSessionCheck.Run (Except.ok ["gt-my-rig-crew-joe".toList]) ["my-rig".toList]
        "gt-acme-mayor".toList "gt-acme-deacon".toList []).2 =
        ["gt-my-rig-crew-joe".toList] ∧
      (OrphanSessionCheck.Fix flakyCollaborators
        (OrphanSessionCheck.Run (Except.ok ["gt-my-rig-crew-joe".toList]) ["my-rig".toList]
          "gt-acme-mayor".toList "gt-acme-deacon".toList []).2 0).trace =
        [Action.LogFeed EventType.TypeSessionDeath "gt-my-rig-crew-joe".toList
           (sessionDeath "gt-my-rig-crew-joe".toList),
         Action.KillSession "gt-my-rig-crew-joe".toList] := by
  decide

/-- Crew sessions of a rig whose name contains no `-` are protected: for every
such rig name and every crew-member name, `isCrewSession` is true on
`gt-<rig>-crew-<name>`, and `OrphanSessionCheck.Fix` never kills that session
nor logs an event for it, whatever the cached orphan list. -/
theorem crew_session_protected {σ ε : Type} (rig name : Str) (hr : '-' ∉ rig)
    (env : Collaborators σ ε) (orphanSessions : List Str) (world : σ) :
    isCrewSession (crewSessionName rig name) = true ∧
      crewSessionName rig name ∉
        killedSessions (OrphanSessionCheck.Fix env orphanSessions world).trace ∧
      crewSessionName rig name ∉
        loggedSubjects (OrphanSessionCheck.Fix env orphanSessions world).trace := by
  have hc := isCrewSession_crewSessionName rig name hr
  refine ⟨hc, ?_, ?_⟩
  · rw [sessionFix_trace, killedSessions_sessionFixCalls]
    intro hmem
    have := (List.mem_filter.mp hmem).2
    simp [hc] at this
  · rw [sessionFix_trace, loggedSubjects_sessionFixCalls]
    intro hmem
    have := (List.mem_filter.mp hmem).2
    simp [hc] at this

/-- Worked example of the protection of crew sessions: rig `gastown`, crew
member `joe`. -/
theorem crew_session_protected_witness :
    '-' ∉ "gastown".toList ∧
      isCrewSession (crewSessionName "gastown".toList "joe".toList) = true ∧
      crewSessionName "gastown".toList "joe".toList ∉
        killedSessions (OrphanSessionCheck.Fix flakyCollaborators sampleOrphans 0).trace :=
  ⟨by decide,
   (crew_session_protected "gastown".toList "joe".toList (by decide)
      flakyCollaborators sampleOrphans 0).1,
   (crew_session_protected "gastown".toList "joe".toList (by decide)
      flakyCollaborators sampleOrphans 0).2.1⟩

/-- C4: for every string, `isCrewSession` is true if and only if splitting it
on `-` gives at least four segments, the first segment is `gt` and the third
is `crew`; the segments of Go's `strings.Split` are those of the library
`List.splitOn`. -/
theorem isCrewSession_iff (s : Str) :
    (isCrewSession s = true ↔
      4 ≤ (List.splitOn '-' s).length ∧
        (List.splitOn '-' s)[0]? = some "gt".toList ∧
        (List.splitOn '-' s)[2]? = some "crew".toList) ∧
      Split '-' s = List.splitOn '-' s := by
  refine ⟨?_, Split_eq_splitOn '-' s⟩
  rw [← Split_eq_splitOn]
  simp [isCrewSession]


/-! Section: Release validation -/

/-- C5: for every work item and every caller, `validateRelease` returns a nil
error if and only if the item's `QueueName` is non-empty and its `Assignee`
equals the caller. -/
theorem validateRelease_ok_iff (msgInfo : messageInfo) (caller : Str) :
    validateRelease msgInfo caller = none ↔
      msgInfo.QueueName ≠ [] ∧ msgInfo.Assignee = caller := by
  by_cases hq : msgInfo.QueueName = []
  · rw [validateRelease_of_no_queue msgInfo caller hq]
    simp [hq]
  · by_cases ha : msgInfo.Assignee = caller
    · rw [validateRelease_of_same msgInfo caller hq ha]
      simp [hq, ha]
    · by_cases hp : HasPrefix msgInfo.Assignee "queue:".toList = true
      · rw [validateRelease_of_sentinel msgInfo caller hq ha hp]
        simp [ha]
      · rw [validateRelease_of_holder msgInfo caller hq ha hp]
        simp [ha]

/-- C6: for every work item with an empty `QueueName` and every caller,
`validateRelease` fails with the not-a-queue-message error, whose text contains
"not a queue message" and the item's ID, whatever the assignee; that error is
neither the not-claimed nor a claimed-by-other error. -/
theorem validateRelease_not_queue_message (msgInfo : messageInfo) (caller : Str)
    (hq : msgInfo.QueueName = []) :
    validateRelease msgInfo caller = some (errNotQueueMessage msgInfo.ID) ∧
      Contains (errNotQueueMessage msgInfo.ID) "not a queue message".toList = true ∧
      Contains (errNotQueueMessage msgInfo.ID) msgInfo.ID = true ∧
      validateRelease msgInfo caller ≠ some (errNotClaimed msgInfo.ID) ∧
      ∀ assignee other,
        validateRelease msgInfo caller ≠ some (errClaimedBy msgInfo.ID assignee other) := by
  have hv : validateRelease msgInfo caller = some (errNotQueueMessage msgInfo.ID) :=
    validateRelease_of_no_queue msgInfo caller hq
  refine ⟨hv, (errNotQueueMessage_contains _).1, (errNotQueueMessage_contains _).2, ?_, ?_⟩
  · rw [hv]
    intro h
    exact errNotQueueMessage_ne_errNotClaimed _ (Option.some.inj h)
  · intro assignee other
    rw [hv]
    intro h
    exact errNotQueueMessage_ne_errClaimedBy _ _ _ (Option.some.inj h)

/-- Worked example of C6: the test's item without a queue label, released by
its own assignee. -/
theorem validateRelease_not_queue_message_witness :
    plainItem.QueueName = [] ∧ plainItem.Assignee = "gastown/polecats/nux".toList ∧
      validateRelease plainItem "gastown/polecats/nux".toList =
        some "message hq-test4 is not a queue message (no queue label)".toList :=
  ⟨rfl, rfl,
   (validateRelease_not_queue_message plainItem "gastown/polecats/nux".toList rfl).1⟩

/-- C7: for every work item with a non-empty `QueueName` and every caller
different from its `Assignee`, `validateRelease` fails; the error is the
not-claimed error (its text contains "not claimed") if and only if the
assignee has the prefix `queue:`; otherwise it is the claimed-by-other error,
whose text contains "was claimed by " followed by the assignee. -/
theorem validateRelease_other_caller (msgInfo : messageInfo) (caller : Str)
    (hq : msgInfo.QueueName ≠ []) (ha : msgInfo.Assignee ≠ caller) :
    validateRelease msgInfo caller ≠ none ∧
      (validateRelease msgInfo caller = some (errNotClaimed msgInfo.ID) ↔
        HasPrefix msgInfo.Assignee "queue:".toList = true) ∧
      Contains (errNotClaimed msgInfo.ID) "not claimed".toList = true ∧
      (HasPrefix msgInfo.Assignee "queue:".toList = false →
        validateRelease msgInfo caller =
          some (errClaimedBy msgInfo.ID msgInfo.Assignee caller)) ∧
      Contains (errClaimedBy msgInfo.ID msgInfo.Assignee caller)
        ("was claimed by ".toList ++ msgInfo.Assignee) = true := by
  by_cases hp : HasPrefix msgInfo.Assignee "queue:".toList = true
  · have hv : validateRelease msgInfo caller = some (errNotClaimed msgInfo.ID) :=
      validateRelease_of_sentinel msgInfo caller hq ha hp
    refine ⟨by rw [hv]; exact Option.some_ne_none _, ⟨fun _ => hp, fun _ => hv⟩,
      errNotClaimed_contains _, ?_, errClaimedBy_contains _ _ _⟩
    intro hf
    rw [hp] at hf
    cases hf
  · have hv : validateRelease msgInfo caller =
        some (errClaimedBy msgInfo.ID msgInfo.Assignee caller) :=
      validateRelease_of_holder msgInfo caller hq ha hp
    refine ⟨by rw [hv]; exact Option.some_ne_none _, ?_, errNotClaimed_contains _, fun _ => hv,
      errClaimedBy_contains _ _ _⟩
    rw [hv]
    constructor
    · intro h
      exact absurd (Option.some.inj h).symm (errNotClaimed_ne_errClaimedBy _ _ _)
    · intro h
      exact absurd h hp

/-- Worked example of C7: the test's item claimed by `gastown/polecats/other`,
released by `gastown/polecats/nux`. -/
theorem validateRelease_other_caller_witness :
    otherItem.QueueName ≠ [] ∧ otherItem.Assignee ≠ "gastown/polecats/nux".toList ∧
      validateRelease otherItem "gastown/polecats/nux".toList =
        some "message hq-test3 was claimed by gastown/polecats/other, not gastown/polecats/nux".toList :=
  ⟨by decide, by decide,
   (validateRelease_other_caller otherItem "gastown/polecats/nux".toList
      (by decide) (by decide)).2.2.2.1 (by decide)⟩

/-- C8, as stated, fails: the test's unclaimed item (queue `work/gastown`,
assignee `queue:work/gastown`) is released without error by the caller string
`queue:work/gastown`. -/
theorem validateRelease_unclaimed_by_sentinel :
    unclaimedItem.QueueName = "work/gastown".toList ∧
      unclaimedItem.QueueName ≠ [] ∧
      unclaimedItem.Assignee = "queue:".toList ++ unclaimedItem.QueueName ∧
      validateRelease unclaimedItem "queue:work/gastown".toList = none := by
  decide

/-- C8, amended: for every work item whose `QueueName` is non-empty and whose
`Assignee` is the unclaimed sentinel `queue:` followed by that queue name, and
for every caller string other than that sentinel, `validateRelease` returns
the not-claimed error; it returns an error exactly when the caller differs
from the sentinel. -/
theorem validateRelease_unclaimed (msgInfo : messageInfo) (caller : Str)
    (hq : msgInfo.QueueName ≠ [])
    (ha : msgInfo.Assignee = "queue:".toList ++ msgInfo.QueueName) :
    (caller ≠ "queue:".toList ++ msgInfo.QueueName →
        validateRelease msgInfo caller = some (errNotClaimed msgInfo.ID)) ∧
      (validateRelease msgInfo caller ≠ none ↔
        caller ≠ "queue:".toList ++ msgInfo.QueueName) := by
  have hp : HasPrefix msgInfo.Assignee "queue:".toList = true := by
    rw [ha]
    simp [HasPrefix]
  by_cases hc : caller = "queue:".toList ++ msgInfo.QueueName
  · have hv : validateRelease msgInfo caller = none :=
      validateRelease_of_same msgInfo caller hq (by rw [ha, hc])
    exact ⟨fun h => absurd hc h, ⟨fun h => absurd hv h, fun h => absurd hc h⟩⟩
  · have hne : msgInfo.Assignee ≠ caller := by
      rw [ha]
      exact fun h => hc h.symm
    have hv : validateRelease msgInfo caller = some (errNotClaimed msgInfo.ID) :=
      validateRelease_of_sentinel msgInfo caller hq hne hp
    exact ⟨fun _ => hv, ⟨fun _ => hc, fun _ => by rw [hv]; exact Option.some_ne_none _⟩⟩

/-- Worked example of the amended C8: the test's unclaimed item released by
`gastown/polecats/nux`. -/
theorem validateRelease_unclaimed_witness :
    unclaimedItem.QueueName ≠ [] ∧
      unclaimedItem.Assignee = "queue:".toList ++ unclaimedItem.QueueName ∧
      "gastown/polecats/nux".toList ≠ "queue:".toList ++ unclaimedItem.QueueName ∧
      validateRelease unclaimedItem "gastown/polecats/nux".toList =
        some "message hq-test2 is not claimed (still in queue)".toList :=
  ⟨by decide, by decide, by decide,
   (validateRelease_unclaimed unclaimedItem "gastown/polecats/nux".toList
      (by decide) (by decide)).1 (by decide)⟩

/-! Section: Session classification -/

/-- C9: for every session name that is not the (non-empty) coordinator or
patrol-executor canonical name, `isValidSession` returns false whenever the
name contains fewer than two `-` (it splits into fewer than three parts) or
the part between its first and second `-` is not in the known-rigs list. -/
theorem isValidSession_false_of_malformed_or_unknown_rig (sess : Str) (validRigs : List Str)
    (mayorSession deaconSession : Str)
    (hm : ¬ (mayorSession ≠ [] ∧ sess = mayorSession))
    (hd : ¬ (deaconSession ≠ [] ∧ sess = deaconSession))
    (h : Count '-' sess < 2 ∨ (SplitN '-' 3 sess).length < 3 ∨
      ∃ a b c, sess = a ++ '-' :: (b ++ '-' :: c) ∧ '-' ∉ a ∧ '-' ∉ b ∧ b ∉ validRigs) :
    OrphanSessionCheck.isValidSession sess validRigs mayorSession deaconSession = false := by
  have hshort : (SplitN '-' 3 sess).length < 3 →
      OrphanSessionCheck.isValidSession sess validRigs mayorSession deaconSession = false := by
    intro hlen
    simp [OrphanSessionCheck.isValidSession, hm, hd, hlen]
  rcases h with h | h | ⟨a, b, c, rfl, ha, hb, hr⟩
  · exact hshort (SplitN_three_short sess h)
  · exact hshort h
  · cases hv : OrphanSessionCheck.isValidSession (a ++ '-' :: (b ++ '-' :: c)) validRigs
        mayorSession deaconSession with
    | false => rfl
    | true =>
      rcases (isValidSession_of_three a b c validRigs mayorSession deaconSession ha hb).mp hv
        with h1 | h1 | h1
      · exact absurd h1 hm
      · exact absurd h1 hd
      · exact absurd h1 hr

/-- Worked example of C9: `gt-old-rig-witness` with known rigs `acme`. -/
theorem isValidSession_false_of_malformed_or_unknown_rig_witness :
    OrphanSessionCheck.isValidSession "gt-old-rig-witness".toList ["acme".toList]
      "gt-acme-mayor".toList "gt-acme-deacon".toList = false :=
  isValidSession_false_of_malformed_or_unknown_rig "gt-old-rig-witness".toList ["acme".toList]
    "gt-acme-mayor".toList "gt-acme-deacon".toList (by decide) (by decide)
    (Or.inr (Or.inr ⟨"gt".toList, "old".toList, "rig-witness".toList,
      by decide, by decide, by decide, by decide⟩))

/-- C10: `isValidSession` is permissive on the trailing token: for every
session name that `SplitN(sess, "-", 3)` cuts into three parts whose second
part is in the known-rigs list, it returns true whatever the third part is. -/
theorem isValidSession_permissive (sess a b c : Str) (validRigs : List Str)
    (mayorSession deaconSession : Str)
    (hs : SplitN '-' 3 sess = [a, b, c]) (hb : b ∈ validRigs) :
    OrphanSessionCheck.isValidSession sess validRigs mayorSession deaconSession = true := by
  have hr : rigFound b validRigs = true := (rigFound_iff b validRigs).mpr hb
  simp [OrphanSessionCheck.isValidSession, hs, hr]

/-- Worked example of C10: an empty trailing token after a known rig. -/
theorem isValidSession_permissive_witness :
    SplitN '-' 3 "gt-acme-".toList = ["gt".toList, "acme".toList, []] ∧
      OrphanSessionCheck.isValidSession "gt-acme-".toList ["acme".toList]
        "gt-acme-mayor".toList "gt-acme-deacon".toList = true :=
  ⟨by decide,
   isValidSession_permissive "gt-acme-".toList "gt".toList "acme".toList []
     ["acme".toList] "gt-acme-mayor".toList "gt-acme-deacon".toList (by decide) (by decide)⟩

/-! Section: Lemmas on the ancestry walk -/

theorem ancestryWalk_bounded (parentOf : Int → Option Int) (tmuxPIDs : Int → Bool)
    (U : Finset Int)
    (hstep : ∀ p n, (parentOf p).bind scanInt = some n → 1 < n → n ∈ U) :
    ∀ (steps : Nat) (cur : Int) (visited : List Int), visited.Nodup →
      (∀ x ∈ visited, x ∈ U) → (1 < cur → cur ∈ U) → U.card < steps + visited.length →
      ∃ b, ancestryWalk parentOf tmuxPIDs steps cur visited = some b := by
  intro steps
  induction steps with
  | zero =>
    intro cur visited hnd hsub _ hcard
    exfalso
    have h1 : visited.toFinset.card = visited.length := List.toFinset_card_of_nodup hnd
    have h2 : visited.toFinset ⊆ U := by
      intro x hx
      exact hsub x (List.mem_toFinset.mp hx)
    have h3 := Finset.card_le_card h2
    omega
  | succ steps ih =>
    intro cur visited hnd hsub hcur hcard
    unfold ancestryWalk
    by_cases hc : 1 < cur ∧ cur ∉ visited
    · rw [if_pos hc]
      by_cases ht : tmuxPIDs cur = true
      · rw [if_pos ht]
        exact ⟨false, rfl⟩
      · rw [if_neg ht]
        cases hp : (parentOf cur).bind scanInt with
        | none => exact ⟨true, rfl⟩
        | some next =>
          apply ih next (cur :: visited) (List.nodup_cons.mpr ⟨hc.2, hnd⟩)
          · intro x hx
            rcases List.mem_cons.mp hx with h | h
            · rw [h]
              exact hcur hc.1
            · exact hsub x h
          · exact hstep cur next hp
          · simp only [List.length_cons]
            omega
    · rw [if_neg hc]
      exact ⟨true, rfl⟩

theorem scanInt_lt (n m : Int) (h : scanInt n = some m) : m < (2 : Int) ^ 63 := by
  unfold scanInt at h
  split at h
  · next hr =>
    cases h
    exact hr.2
  · cases h

theorem ancestryWalk_terminates (parentOf : Int → Option Int) (tmuxPIDs : Int → Bool)
    (start : Int) :
    ∃ b, ancestryWalk parentOf tmuxPIDs maxWalk start [] = some b := by
  apply ancestryWalk_bounded parentOf tmuxPIDs
    (insert start (Finset.Icc (2 : Int) ((2 : Int) ^ 63 - 1)))
  · intro p n hn h1
    cases hp : parentOf p with
    | none => rw [hp] at hn; cases hn
    | some m =>
      rw [hp] at hn
      have := scanInt_lt m n hn
      apply Finset.mem_insert_of_mem
      rw [Finset.mem_Icc]
      omega
  · exact List.nodup_nil
  · intro x hx
    cases hx
  · intro _
    exact Finset.mem_insert_self _ _
  · have h1 := Finset.card_insert_le start (Finset.Icc (2 : Int) ((2 : Int) ^ 63 - 1))
    have h2 : (Finset.Icc (2 : Int) ((2 : Int) ^ 63 - 1)).card = 2 ^ 63 - 2 := by
      rw [Int.card_Icc]
      norm_num
      rfl
    simp only [maxWalk, List.length_nil]
    omega

theorem ancestor_succ_of_lookup (parentOf : Int → Option Int) (k : Nat) (pid next : Int)
    (h : lookupParent parentOf pid = some next) :
    ancestor parentOf (k + 1) pid = ancestor parentOf k next := by
  simp [ancestor, h]

theorem ancestor_succ_of_fail (parentOf : Int → Option Int) (k : Nat) (pid : Int)
    (h : lookupParent parentOf pid = none) :
    ancestor parentOf (k + 1) pid = none := by
  simp [ancestor, h]

theorem ancestor_succ_back (parentOf : Int → Option Int) (k : Nat) (pid : Int) :
    ancestor parentOf (k + 1) pid = (ancestor parentOf k pid).bind (lookupParent parentOf) := by
  induction k generalizing pid with
  | zero =>
    cases h : lookupParent parentOf pid <;> simp [ancestor, h]
  | succ k ih =>
    cases h : lookupParent parentOf pid with
    | none => simp [ancestor, h]
    | some next =>
      rw [ancestor_succ_of_lookup parentOf (k + 1) pid next h, ih next,
        ancestor_succ_of_lookup parentOf k pid next h]

theorem ancestor_none_after (parentOf : Int → Option Int) (k : Nat) (pid q : Int)
    (hq : ancestor parentOf k pid = some q) (hfail : lookupParent parentOf q = none) :
    ∀ j, k < j → ancestor parentOf j pid = none := by
  intro j hj
  induction j with
  | zero => omega
  | succ j ih =>
    rw [ancestor_succ_back]
    by_cases hkj : k = j
    · subst hkj
      rw [hq]
      exact hfail
    · rw [ih (by omega)]
      rfl

theorem reachesSupervisor_step (parentOf : Int → Option Int) (tmuxPIDs : Int → Bool)
    (cur next : Int) (visited : List Int) (hc : 1 < cur ∧ cur ∉ visited)
    (ht : ¬ tmuxPIDs cur = true) (hp : lookupParent parentOf cur = some next) :
    reachesSupervisor parentOf tmuxPIDs cur visited ↔
      reachesSupervisor parentOf tmuxPIDs next (cur :: visited) := by
  constructor
  · rintro ⟨k, p, hk, hpt, hall, hdist⟩
    cases k with
    | zero =>
      simp only [ancestor, Option.some.injEq] at hk
      subst hk
      exact absurd hpt ht
    | succ k =>
      refine ⟨k, p, ?_, hpt, ?_, ?_⟩
      · rw [← ancestor_succ_of_lookup parentOf k cur next hp]
        exact hk
      · intro j hj
        obtain ⟨q, hq1, hq2, hq3⟩ := hall (j + 1) (by omega)
        rw [ancestor_succ_of_lookup parentOf j cur next hp] at hq1
        refine ⟨q, hq1, hq2, ?_⟩
        intro hmem
        rcases List.mem_cons.mp hmem with h | h
        · have := hdist 0 (j + 1) (by omega) (by omega)
          rw [ancestor_succ_of_lookup parentOf j cur next hp, hq1, h] at this
          exact this rfl
        · exact hq3 h
      · intro i j hij hj
        have := hdist (i + 1) (j + 1) (by omega) (by omega)
        rw [ancestor_succ_of_lookup parentOf i cur next hp,
          ancestor_succ_of_lookup parentOf j cur next hp] at this
        exact this
  · rintro ⟨k, p, hk, hpt, hall, hdist⟩
    refine ⟨k + 1, p, ?_, hpt, ?_, ?_⟩
    · rw [ancestor_succ_of_lookup parentOf k cur next hp]
      exact hk
    · intro j hj
      cases j with
      | zero => exact ⟨cur, rfl, hc.1, hc.2⟩
      | succ j =>
        obtain ⟨q, hq1, hq2, hq3⟩ := hall j (by omega)
        rw [ancestor_succ_of_lookup parentOf j cur next hp]
        exact ⟨q, hq1, hq2, fun h => hq3 (List.mem_cons_of_mem _ h)⟩
    · intro i j hij hj
      cases j with
      | zero => omega
      | succ j =>
        rw [ancestor_succ_of_lookup parentOf j cur next hp]
        cases i with
        | zero =>
          obtain ⟨q, hq1, _, hq3⟩ := hall j (by omega)
          rw [hq1]
          intro h
          simp only [ancestor, Option.some.injEq] at h
          exact hq3 (by rw [← h]; exact List.mem_cons_self _ _)
        | succ i =>
          rw [ancestor_succ_of_lookup parentOf i cur next hp]
          exact hdist i j (by omega) (by omega)

theorem ancestryWalk_spec (parentOf : Int → Option Int) (tmuxPIDs : Int → Bool) :
    ∀ (steps : Nat) (cur : Int) (visited : List Int) (b : Bool),
      ancestryWalk parentOf tmuxPIDs steps cur visited = some b →
      (b = false ↔ reachesSupervisor parentOf tmuxPIDs cur visited) := by
  intro steps
  induction steps with
  | zero =>
    intro cur visited b h
    simp [ancestryWalk] at h
  | succ steps ih =>
    intro cur visited b h
    unfold ancestryWalk at h
    by_cases hc : 1 < cur ∧ cur ∉ visited
    · rw [if_pos hc] at h
      by_cases ht : tmuxPIDs cur = true
      · rw [if_pos ht] at h
        cases h
        refine ⟨fun _ => ⟨0, cur, rfl, ht, ?_, ?_⟩, fun _ => rfl⟩
        · intro j hj
          have : j = 0 := by omega
          subst this
          exact ⟨cur, rfl, hc.1, hc.2⟩
        · intro i j hij hj
          omega
      · rw [if_neg ht] at h
        cases hp : (parentOf cur).bind scanInt with
        | none =>
          rw [hp] at h
          cases h
          constructor
          · intro h
            cases h
          · rintro ⟨k, p, hk, hpt, hall, _⟩
            exfalso
            cases k with
            | zero =>
              simp only [ancestor, Option.some.injEq] at hk
              subst hk
              exact ht hpt
            | succ k =>
              rw [ancestor_succ_of_fail parentOf k cur hp] at hk
              cases hk
        | some next =>
          rw [hp] at h
          rw [reachesSupervisor_step parentOf tmuxPIDs cur next visited hc ht hp]
          exact ih next (cur :: visited) b h
    · rw [if_neg hc] at h
      cases h
      constructor
      · intro h
        cases h
      · rintro ⟨k, p, _, _, hall, _⟩
        exfalso
        obtain ⟨q, hq1, hq2, hq3⟩ := hall 0 (Nat.zero_le k)
        simp only [ancestor, Option.some.injEq] at hq1
        subst hq1
        exact hc ⟨hq2, hq3⟩

theorem isOrphanProcess_eq_walk (parentOf : Int → Option Int) (proc : processInfo)
    (tmuxPIDs : Int → Bool) :
    ancestryWalk parentOf tmuxPIDs maxWalk proc.ppid [] =
      some (OrphanProcessCheck.isOrphanProcess parentOf proc tmuxPIDs) := by
  obtain ⟨b, hb⟩ := ancestryWalk_terminates parentOf tmuxPIDs proc.ppid
  simp [OrphanProcessCheck.isOrphanProcess, hb]

theorem isOrphanProcess_false_iff (parentOf : Int → Option Int) (proc : processInfo)
    (tmuxPIDs : Int → Bool) :
    OrphanProcessCheck.isOrphanProcess parentOf proc tmuxPIDs = false ↔
      reachesSupervisor parentOf tmuxPIDs proc.ppid [] :=
  ancestryWalk_spec parentOf tmuxPIDs maxWalk proc.ppid [] _
    (isOrphanProcess_eq_walk parentOf proc tmuxPIDs)

theorem isOrphanProcess_of_no_supervisor (parentOf : Int → Option Int) (proc : processInfo)
    (tmuxPIDs : Int → Bool)
    (hno : ∀ k q, ancestor parentOf k proc.ppid = some q → tmuxPIDs q = false) :
    OrphanProcessCheck.isOrphanProcess parentOf proc tmuxPIDs = true := by
  cases h : OrphanProcessCheck.isOrphanProcess parentOf proc tmuxPIDs with
  | true => rfl
  | false =>
    obtain ⟨k, p, hk, hpt, _, _⟩ := (isOrphanProcess_false_iff parentOf proc tmuxPIDs).mp h
    rw [hno k p hk] at hpt
    cases hpt

/-! Section: Lemmas on the two scans -/

theorem scanSessions_spec (validRigs : List Str) (mayorSession deaconSession : Str) :
    ∀ (sessions : List Str) (acc : List Str × Nat),
      OrphanSessionCheck.scanSessions validRigs mayorSession deaconSession sessions acc =
        (acc.1 ++ sessions.filter (fun s => HasPrefix s "gt-".toList &&
            !OrphanSessionCheck.isValidSession s validRigs mayorSession deaconSession),
         acc.2 + sessions.countP (fun s => HasPrefix s "gt-".toList &&
            OrphanSessionCheck.isValidSession s validRigs mayorSession deaconSession)) := by
  intro sessions
  induction sessions with
  | nil =>
    intro acc
    simp only [OrphanSessionCheck.scanSessions, List.filter_nil, List.append_nil,
      List.countP_nil, Nat.add_zero]
  | cons sess rest ih =>
    intro acc
    unfold OrphanSessionCheck.scanSessions
    by_cases h1 : sess = []
    · have hp : HasPrefix sess "gt-".toList = false := by
        rw [h1]
        rfl
      rw [if_pos h1, ih]
      simp only [List.filter_cons, List.countP_cons, hp, Bool.false_and, Bool.false_eq_true,
        if_false, Nat.add_zero]
    · rw [if_neg h1]
      by_cases h2 : HasPrefix sess "gt-".toList = true
      · rw [if_neg (not_not.mpr h2)]
        by_cases h3 : OrphanSessionCheck.isValidSession sess validRigs mayorSession
            deaconSession = true
        · rw [if_pos h3, ih]
          simp only [List.filter_cons, List.countP_cons, h2, h3, Bool.true_and, Bool.not_true,
            Bool.false_eq_true, if_false, if_true, Nat.add_assoc, Nat.add_comm 1]
        · have h3f : OrphanSessionCheck.isValidSession sess validRigs mayorSession
              deaconSession = false := by
            cases h : OrphanSessionCheck.isValidSession sess validRigs mayorSession
              deaconSession
            · rfl
            · exact absurd h h3
          rw [if_neg h3, ih]
          simp only [List.filter_cons, List.countP_cons, h2, h3f, Bool.true_and, Bool.not_false,
            Bool.false_eq_true, if_false, if_true, Nat.add_zero, List.append_assoc,
            List.singleton_append]
      · have h2f : HasPrefix sess "gt-".toList = false := by
          cases h : HasPrefix sess "gt-".toList
          · rfl
          · exact absurd h h2
        rw [if_pos h2, ih]
        simp only [List.filter_cons, List.countP_cons, h2f, Bool.false_and, Bool.false_eq_true,
          if_false, Nat.add_zero]

theorem categorize_spec (parentOf : Int → Option Int) (tmuxPIDs : Int → Bool) :
    ∀ (procs : List processInfo) (acc : processScan),
      OrphanProcessCheck.categorize parentOf tmuxPIDs procs acc =
        ⟨acc.insideTmux + (procs.filter (fun p =>
            !OrphanProcessCheck.isOrphanProcess parentOf p tmuxPIDs)).length,
         acc.orphanedGasTown ++ procs.filter (fun p =>
            OrphanProcessCheck.isOrphanProcess parentOf p tmuxPIDs && p.isGasTown),
         acc.orphanedPersonal ++ procs.filter (fun p =>
            OrphanProcessCheck.isOrphanProcess parentOf p tmuxPIDs && !p.isGasTown)⟩ := by
  intro procs
  induction procs with
  | nil =>
    intro acc
    simp only [OrphanProcessCheck.categorize, List.filter_nil, List.append_nil,
      List.length_nil, Nat.add_zero]
  | cons proc rest ih =>
    intro acc
    unfold OrphanProcessCheck.categorize
    cases ho : OrphanProcessCheck.isOrphanProcess parentOf proc tmuxPIDs with
    | true =>
      cases hg : proc.isGasTown with
      | true =>
        simp only [if_true, ih, List.filter_cons, ho, hg, Bool.not_true, Bool.and_self,
          Bool.and_false, Bool.false_eq_true, if_false, List.append_assoc,
          List.singleton_append]
      | false =>
        simp only [if_true, ih, List.filter_cons, ho, hg, Bool.not_true, Bool.not_false,
          Bool.and_self, Bool.and_false, Bool.false_eq_true, if_false, List.append_assoc,
          List.singleton_append]
    | false =>
      simp only [ih, List.filter_cons, ho, Bool.not_false, Bool.false_and, Bool.false_eq_true,
        if_false, if_true, List.length_cons, Nat.add_assoc, Nat.add_comm 1]

theorem length_filter_three {α : Type} (o g : α → Bool) (l : List α) :
    (l.filter (fun p => !o p)).length + (l.filter (fun p => o p && g p)).length +
      (l.filter (fun p => o p && !g p)).length = l.length := by
  induction l with
  | nil => rfl
  | cons a rest ih =>
    cases ho : o a <;> cases hg : g a <;>
      simp only [List.filter_cons, ho, hg, Bool.not_true, Bool.not_false, Bool.and_self,
        Bool.and_false, Bool.false_and, Bool.true_and, Bool.false_eq_true, if_false, if_true,
        List.length_cons] <;> omega

theorem countP_add_length_filter {α : Type} (p v : α → Bool) (l : List α) :
    l.countP (fun s => p s && v s) + (l.filter (fun s => p s && !v s)).length =
      l.countP p := by
  induction l with
  | nil => rfl
  | cons a rest ih =>
    cases hp : p a <;> cases hv : v a <;>
      simp only [List.countP_cons, List.filter_cons, hp, hv, Bool.true_and, Bool.false_and,
        Bool.not_true, Bool.not_false, Bool.false_eq_true, if_true, if_false,
        List.length_cons, Nat.add_zero] <;> omega

/-! Section: Lemmas on the order of calls and on the returned error -/

theorem sessionFixCalls_logged (l : List Str) :
    ∀ (pre post : List Action) (a : Action), sessionFixCalls l = pre ++ a :: post →
      (∀ sess, a = Action.KillSession sess →
        ∃ pre1, pre = pre1 ++ [Action.LogFeed EventType.TypeSessionDeath sess
          (sessionDeath sess)]) ∧
      ∀ pid, a ≠ Action.Kill pid := by
  induction l with
  | nil =>
    intro pre post a h
    simp [sessionFixCalls] at h
  | cons s rest ih =>
    intro pre post a h
    unfold sessionFixCalls at h
    cases pre with
    | nil =>
      simp only [List.nil_append, List.cons.injEq] at h
      obtain ⟨h1, _⟩ := h
      subst h1
      exact ⟨fun sess hs => (by cases hs), fun pid hp => (by cases hp)⟩
    | cons x pre2 =>
      cases pre2 with
      | nil =>
        simp only [List.cons_append, List.nil_append, List.cons.injEq] at h
        obtain ⟨h1, h2, _⟩ := h
        subst h1
        subst h2
        refine ⟨fun sess hs => ?_, fun pid hp => (by cases hp)⟩
        cases hs
        exact ⟨[], rfl⟩
      | cons y pre3 =>
        simp only [List.cons_append, List.cons.injEq] at h
        obtain ⟨h1, h2, h3⟩ := h
        obtain ⟨ih1, ih2⟩ := ih pre3 post a h3
        refine ⟨fun sess hs => ?_, ih2⟩
        obtain ⟨pre1, hpre1⟩ := ih1 sess hs
        exact ⟨x :: y :: pre1, by rw [hpre1]; rfl⟩

theorem processFixCalls_logged (l : List processInfo) :
    ∀ (pre post : List Action) (a : Action), processFixCalls l = pre ++ a :: post →
      (∀ pid, a = Action.Kill pid →
        ∃ pre1, pre = pre1 ++ [Action.LogFeed EventType.TypeSessionDeath (pidSubject pid)
          (processDeath pid)]) ∧
      ∀ sess, a ≠ Action.KillSession sess := by
  induction l with
  | nil =>
    intro pre post a h
    simp [processFixCalls] at h
  | cons p rest ih =>
    intro pre post a h
    unfold processFixCalls at h
    cases pre with
    | nil =>
      simp only [List.nil_append, List.cons.injEq] at h
      obtain ⟨h1, _⟩ := h
      subst h1
      exact ⟨fun pid hp => (by cases hp), fun sess hs => (by cases hs)⟩
    | cons x pre2 =>
      cases pre2 with
      | nil =>
        simp only [List.cons_append, List.nil_append, List.cons.injEq] at h
        obtain ⟨h1, h2, _⟩ := h
        subst h1
        subst h2
        refine ⟨fun pid hp => ?_, fun sess hs => (by cases hs)⟩
        cases hp
        exact ⟨[], rfl⟩
      | cons y pre3 =>
        simp only [List.cons_append, List.cons.injEq] at h
        obtain ⟨h1, h2, h3⟩ := h
        obtain ⟨ih1, ih2⟩ := ih pre3 post a h3
        refine ⟨fun pid hp => ?_, ih2⟩
        obtain ⟨pre1, hpre1⟩ := ih1 pid hp
        exact ⟨x :: y :: pre1, by rw [hpre1]; rfl⟩

theorem setLastErr_lastFailure {ε : Type} (lastErr answer : Option ε)
    (rest : List (Option ε)) :
    (match lastFailure rest with
      | some e => some e
      | none => setLastErr lastErr answer) =
    (match lastFailure (answer :: rest) with
      | some e => some e
      | none => lastErr) := by
  cases h : lastFailure rest with
  | some e => simp [lastFailure, h]
  | none => cases answer <;> simp [lastFailure, h, setLastErr]

theorem sessionFixLoop_lastErr {σ ε : Type} (env : Collaborators σ ε) (l : List Str)
    (st : FixState σ ε) :
    (OrphanSessionCheck.fixLoop env l st).lastErr =
      match lastFailure (sessionKillOutcomes env
          (l.filter (fun s => !isCrewSession s)) st.world) with
      | some e => some e
      | none => st.lastErr := by
  induction l generalizing st with
  | nil => simp [OrphanSessionCheck.fixLoop, sessionKillOutcomes, lastFailure]
  | cons s rest ih =>
    by_cases hs : isCrewSession s = true
    · simp [OrphanSessionCheck.fixLoop, hs, ih]
    · have hf : isCrewSession s = false := by
        cases h : isCrewSession s
        · rfl
        · exact absurd h hs
      simp only [OrphanSessionCheck.fixLoop, hf, Bool.false_eq_true, if_false, ih,
        List.filter_cons, Bool.not_false, if_true, sessionKillOutcomes]
      exact setLastErr_lastFailure _ _ _

theorem processFixLoop_lastErr {σ ε : Type} (env : Collaborators σ ε)
    (l : List processInfo) (st : FixState σ ε) :
    (OrphanProcessCheck.fixLoop env l st).lastErr =
      match lastFailure (processKillOutcomes env
          (l.filter (fun p => p.isGasTown)) st.world) with
      | some e => some e
      | none => st.lastErr := by
  induction l generalizing st with
  | nil => simp [OrphanProcessCheck.fixLoop, processKillOutcomes, lastFailure]
  | cons p rest ih =>
    by_cases hp : p.isGasTown = true
    · simp only [OrphanProcessCheck.fixLoop, hp, not_true_eq_false, if_false, ih,
        List.filter_cons, if_true, processKillOutcomes]
      exact setLastErr_lastFailure _ _ _
    · simp [OrphanProcessCheck.fixLoop, hp, ih]

theorem sessionFix_lastErr {σ ε : Type} (env : Collaborators σ ε) (l : List Str) (world : σ) :
    (OrphanSessionCheck.Fix env l world).lastErr =
      lastFailure (sessionKillOutcomes env (l.filter (fun s => !isCrewSession s)) world) := by
  unfold OrphanSessionCheck.Fix
  split
  · next h =>
    have : l = [] := List.length_eq_zero.mp h
    subst this
    rfl
  · rw [sessionFixLoop_lastErr]
    cases lastFailure (sessionKillOutcomes env (l.filter (fun s => !isCrewSession s)) world)
      <;> rfl

theorem processFix_lastErr {σ ε : Type} (env : Collaborators σ ε) (l : List processInfo)
    (world : σ) :
    (OrphanProcessCheck.Fix env l world).lastErr =
      lastFailure (processKillOutcomes env (l.filter (fun p => p.isGasTown)) world) := by
  unfold OrphanProcessCheck.Fix
  split
  · next h =>
    have : l = [] := List.length_eq_zero.mp h
    subst this
    rfl
  · rw [processFixLoop_lastErr]
    cases lastFailure (processKillOutcomes env (l.filter (fun p => p.isGasTown)) world)
      <;> rfl

theorem length_sessionKillOutcomes {σ ε : Type} (env : Collaborators σ ε) (l : List Str)
    (world : σ) : (sessionKillOutcomes env l world).length = l.length := by
  induction l generalizing world with
  | nil => rfl
  | cons s rest ih => simp [sessionKillOutcomes, ih]

theorem length_processKillOutcomes {σ ε : Type} (env : Collaborators σ ε)
    (l : List processInfo) (world : σ) :
    (processKillOutcomes env l world).length = l.length := by
  induction l generalizing world with
  | nil => rfl
  | cons p rest ih => simp [processKillOutcomes, ih]

theorem lastFailure_eq_none_iff {ε : Type} (answers : List (Option ε)) :
    lastFailure answers = none ↔ ∀ r ∈ answers, r = none := by
  induction answers with
  | nil => simp [lastFailure]
  | cons a rest ih =>
    cases h : lastFailure rest with
    | some e =>
      have hne : ¬ ∀ r ∈ rest, r = none := fun hall => by
        rw [ih.mpr hall] at h
        cases h
      simp only [lastFailure, h, List.mem_cons, forall_eq_or_imp]
      constructor
      · intro h1
        cases h1
      · intro h1
        exact absurd h1.2 hne
    | none =>
      simp only [lastFailure, h, List.mem_cons, forall_eq_or_imp]
      exact ⟨fun h1 => ⟨h1, ih.mp h⟩, fun h1 => h1.1⟩

theorem lastFailure_eq_some_iff {ε : Type} (answers : List (Option ε)) (e : ε) :
    lastFailure answers = some e ↔
      ∃ pre post, answers = pre ++ some e :: post ∧ ∀ r ∈ post, r = none := by
  induction answers with
  | nil => simp [lastFailure]
  | cons a rest ih =>
    cases h : lastFailure rest with
    | some e1 =>
      simp only [lastFailure, h]
      constructor
      · intro h1
        rw [h1] at h
        obtain ⟨pre, post, hp, hall⟩ := ih.mp h
        exact ⟨a :: pre, post, by rw [hp]; rfl, hall⟩
      · rintro ⟨pre, post, hp, hall⟩
        cases pre with
        | nil =>
          simp only [List.nil_append, List.cons.injEq] at hp
          have := (lastFailure_eq_none_iff rest).mpr (by rw [hp.2]; exact hall)
          rw [this] at h
          cases h
        | cons x pre1 =>
          simp only [List.cons_append, List.cons.injEq] at hp
          rw [← h]
          exact ih.mpr ⟨pre1, post, hp.2, hall⟩
    | none =>
      simp only [lastFailure, h]
      have hall := (lastFailure_eq_none_iff rest).mp h
      constructor
      · intro h1
        exact ⟨[], rest, by rw [h1]; rfl, hall⟩
      · rintro ⟨pre, post, hp, hpost⟩
        cases pre with
        | nil =>
          simp only [List.nil_append, List.cons.injEq] at hp
          exact hp.1
        | cons x pre1 =>
          simp only [List.cons_append, List.cons.injEq] at hp
          have := hall (some e) (by rw [hp.2]; simp)
          cases this

/-! Section: Session and process scans -/

/-- C11: in `OrphanSessionCheck.Run`, sessions without the `gt-` prefix are
ignored and every other session is classified exactly once.  The orphan list
is the sub-list, in input order, of the sessions that start with `gt-` and fail
`isValidSession`; `validCount` is the number of sessions that start with `gt-`
and pass it; their sum is the number of `gt-` sessions; and when the listing
succeeded with a non-empty list, that orphan list is what `Run` caches. -/
theorem sessionRun_classifies (sessions validRigs : List Str)
    (mayorSession deaconSession : Str) (cached : List Str) :
    (OrphanSessionCheck.scanSessions validRigs mayorSession deaconSession sessions ([], 0)).1 =
        sessions.filter (fun s => HasPrefix s "gt-".toList &&
          !OrphanSessionCheck.isValidSession s validRigs mayorSession deaconSession) ∧
      (OrphanSessionCheck.scanSessions validRigs mayorSession deaconSession sessions ([], 0)).2 =
        sessions.countP (fun s => HasPrefix s "gt-".toList &&
          OrphanSessionCheck.isValidSession s validRigs mayorSession deaconSession) ∧
      (OrphanSessionCheck.scanSessions validRigs mayorSession deaconSession sessions ([], 0)).2 +
        (OrphanSessionCheck.scanSessions validRigs mayorSession deaconSession
          sessions ([], 0)).1.length =
        sessions.countP (fun s => HasPrefix s "gt-".toList) ∧
      (sessions ≠ [] →
        (OrphanSessionCheck.Run (Except.ok sessions) validRigs mayorSession deaconSession
          cached).2 =
        sessions.filter (fun s => HasPrefix s "gt-".toList &&
          !OrphanSessionCheck.isValidSession s validRigs mayorSession deaconSession)) := by
  have hscan := scanSessions_spec validRigs mayorSession deaconSession sessions ([], 0)
  simp only [List.nil_append, Nat.zero_add] at hscan
  refine ⟨by rw [hscan], by rw [hscan], ?_, ?_⟩
  · rw [hscan]
    exact countP_add_length_filter (fun s => HasPrefix s "gt-".toList)
      (fun s => OrphanSessionCheck.isValidSession s validRigs mayorSession deaconSession)
      sessions
  · intro hne
    have hlen : ¬ sessions.length = 0 := fun h => hne (List.length_eq_zero.mp h)
    unfold OrphanSessionCheck.Run
    simp only [hlen, if_false, hscan]
    split <;> rfl

/-- Worked example of C11: the scenario's three sessions together with a
session that does not carry the `gt-` prefix. -/
theorem sessionRun_classifies_witness :
    ("tmux-main".toList :: scenarioSessions) ≠ [] ∧
      (OrphanSessionCheck.Run (Except.ok ("tmux-main".toList :: scenarioSessions))
        ["acme".toList] "gt-acme-mayor".toList "gt-acme-deacon".toList []).2 =
      ("tmux-main".toList :: scenarioSessions).filter (fun s => HasPrefix s "gt-".toList &&
        !OrphanSessionCheck.isValidSession s ["acme".toList] "gt-acme-mayor".toList
          "gt-acme-deacon".toList) :=
  ⟨by decide,
   (sessionRun_classifies ("tmux-main".toList :: scenarioSessions) ["acme".toList]
      "gt-acme-mayor".toList "gt-acme-deacon".toList []).2.2.2 (by decide)⟩

/-- C12: the end-to-end scenario.  For the live sessions `gt-acme-mayor`,
`gt-acme-witness`, `gt-old-rig-witness`, the known rig `acme` and the canonical
names `gt-acme-mayor` and `gt-acme-deacon`, the orphan list is exactly
`gt-old-rig-witness`, the valid count is 2, and `Run` reports WARNING with one
detail line for the orphan and caches that list. -/
theorem sessionRun_scenario :
    OrphanSessionCheck.scanSessions ["acme".toList] "gt-acme-mayor".toList
        "gt-acme-deacon".toList scenarioSessions ([], 0) =
        (["gt-old-rig-witness".toList], 2) ∧
      OrphanSessionCheck.Run (Except.ok scenarioSessions) ["acme".toList]
        "gt-acme-mayor".toList "gt-acme-deacon".toList [] =
        (⟨"orphan-sessions".toList, CheckStatus.StatusWarning,
          "Found 1 orphaned session(s)".toList, ["Orphan: gt-old-rig-witness".toList],
          "Run 'gt doctor --fix' to kill orphaned sessions".toList⟩,
         ["gt-old-rig-witness".toList]) := by
  decide

/-- C13, as stated, fails: with one candidate process that is an orphaned
personal session and no orphaned managed process, `OrphanProcessCheck.Run`
reports status OK although there is an orphan. -/
theorem processRun_ok_with_personal_orphan :
    (OrphanProcessCheck.categorize sampleParents sampleTmux personalOnly ⟨0, [], []⟩) =
        ⟨0, [], personalOnly⟩ ∧
      personalOnly ≠ [] ∧
      (OrphanProcessCheck.Run (Except.ok sampleTmux) (Except.ok personalOnly)
        sampleParents []).1.Status = CheckStatus.StatusOK ∧
      (OrphanProcessCheck.Run (Except.ok sampleTmux) (Except.ok personalOnly)
        sampleParents []).1.Message =
        "Found 0 orphaned Gas Town process(es), 1 personal session(s) protected".toList := by
  decide

/-- C13, amended: when the inventories are obtained and at least one candidate
process exists, `OrphanProcessCheck.Run` reports WARNING if and only if there
is at least one orphaned managed process, and OK if and only if there is none;
orphaned personal processes do not change the status.  Whenever there is at
least one orphaned personal process, the message is "Found <g> orphaned Gas
Town process(es), <n> personal session(s) protected" with `g` and `n` the
numbers of managed and personal orphans, and the details end with the header
"Personal Claude sessions (<n>) - PROTECTED:" followed by one line
"  PID <pid>: <cmd> (personal session, not auto-fixed)" per personal orphan,
in order; before them stand nothing when there is no managed orphan, and
otherwise the managed header, one line per managed orphan and an empty line. -/
theorem processRun_status (tmuxPIDs : Int → Bool) (runtimeProcs : List processInfo)
    (parentOf : Int → Option Int) (cached : List processInfo) (hne : runtimeProcs ≠ []) :
    ((OrphanProcessCheck.Run (Except.ok tmuxPIDs) (Except.ok runtimeProcs)
        parentOf cached).1.Status = CheckStatus.StatusWarning ↔
      (OrphanProcessCheck.categorize parentOf tmuxPIDs runtimeProcs
        ⟨0, [], []⟩).orphanedGasTown ≠ []) ∧
    ((OrphanProcessCheck.Run (Except.ok tmuxPIDs) (Except.ok runtimeProcs)
        parentOf cached).1.Status = CheckStatus.StatusOK ↔
      (OrphanProcessCheck.categorize parentOf tmuxPIDs runtimeProcs
        ⟨0, [], []⟩).orphanedGasTown = []) ∧
    ∀ scan, scan = OrphanProcessCheck.categorize parentOf tmuxPIDs runtimeProcs ⟨0, [], []⟩ →
      scan.orphanedPersonal ≠ [] →
      (OrphanProcessCheck.Run (Except.ok tmuxPIDs) (Except.ok runtimeProcs)
          parentOf cached).1.Message =
        ("Found ".toList ++ sprintfLen scan.orphanedGasTown.length ++
            " orphaned Gas Town process(es)".toList) ++
          (", ".toList ++ sprintfLen scan.orphanedPersonal.length ++
            " personal session(s) protected".toList) ∧
      (OrphanProcessCheck.Run (Except.ok tmuxPIDs) (Except.ok runtimeProcs)
          parentOf cached).1.Details =
        (if scan.orphanedGasTown = [] then []
         else
          (("Orphaned Gas Town processes (".toList ++
              sprintfLen scan.orphanedGasTown.length ++ "):".toList) ::
            scan.orphanedGasTown.map (fun proc => "  PID ".toList ++ sprintfD proc.pid ++
              ": ".toList ++ proc.cmd ++ " (will be killed with --fix)".toList)) ++ [[]]) ++
          (("Personal Claude sessions (".toList ++
              sprintfLen scan.orphanedPersonal.length ++ ") - PROTECTED:".toList) ::
            scan.orphanedPersonal.map (fun proc => "  PID ".toList ++ sprintfD proc.pid ++
              ": ".toList ++ proc.cmd ++ " (personal session, not auto-fixed)".toList)) := by
  have hlen : ¬ runtimeProcs.length = 0 := fun h => hne (List.length_eq_zero.mp h)
  refine ⟨?_, ?_, ?_⟩
  · unfold OrphanProcessCheck.Run
    simp only [hlen, if_false]
    cases hg : (OrphanProcessCheck.categorize parentOf tmuxPIDs runtimeProcs
        ⟨0, [], []⟩).orphanedGasTown with
    | nil =>
      by_cases hp : (OrphanProcessCheck.categorize parentOf tmuxPIDs runtimeProcs
          ⟨0, [], []⟩).orphanedPersonal.length = 0
      · simp [hp]
      · simp [hp]
    | cons x xs => simp
  · unfold OrphanProcessCheck.Run
    simp only [hlen, if_false]
    cases hg : (OrphanProcessCheck.categorize parentOf tmuxPIDs runtimeProcs
        ⟨0, [], []⟩).orphanedGasTown with
    | nil =>
      by_cases hp : (OrphanProcessCheck.categorize parentOf tmuxPIDs runtimeProcs
          ⟨0, [], []⟩).orphanedPersonal.length = 0
      · simp [hp]
      · simp [hp]
    | cons x xs => simp
  · intro scan hscan hp
    unfold OrphanProcessCheck.Run
    simp only [hlen, if_false]
    rw [← hscan]
    obtain ⟨inside, managed, personal⟩ := scan
    cases personal with
    | nil => exact absurd rfl hp
    | cons p ps =>
      cases managed with
      | nil =>
        simp only [List.length_cons, List.length_nil, Nat.succ_ne_zero, and_false, if_false,
          Nat.zero_lt_succ, if_true, Nat.lt_irrefl, OrphanProcessCheck.details,
          List.nil_append, List.map_cons, and_self]
      | cons g gs =>
        simp only [List.length_cons, Nat.succ_ne_zero, and_false, false_and, if_false,
          Nat.zero_lt_succ, if_true, OrphanProcessCheck.details, List.map_cons,
          List.cons_append, List.append_assoc, List.nil_append, List.singleton_append,
          reduceCtorEq, and_self]

/-- Worked example of the amended C13: a fleet process under a supervisor, a
fleet orphan and a personal orphan give WARNING, a message that counts both
orphans and five detail lines. -/
theorem processRun_status_witness :
    mixedProcesses ≠ [] ∧
      (OrphanProcessCheck.categorize sampleParents sampleTmux mixedProcesses
        ⟨0, [], []⟩).orphanedGasTown ≠ [] ∧
      (OrphanProcessCheck.Run (Except.ok sampleTmux) (Except.ok mixedProcesses)
        sampleParents []).1.Status = CheckStatus.StatusWarning ∧
      (OrphanProcessCheck.categorize sampleParents sampleTmux mixedProcesses
        ⟨0, [], []⟩).orphanedPersonal ≠ [] ∧
      (OrphanProcessCheck.Run (Except.ok sampleTmux) (Except.ok mixedProcesses)
        sampleParents []).1.Message =
        "Found 1 orphaned Gas Town process(es), 1 personal session(s) protected".toList ∧
      (OrphanProcessCheck.Run (Except.ok sampleTmux) (Except.ok mixedProcesses)
        sampleParents []).1.Details =
        ["Orphaned Gas Town processes (1):".toList,
         "  PID 4302: codex (will be killed with --fix)".toList,
         [],
         "Personal Claude sessions (1) - PROTECTED:".toList,
         "  PID 4303: claude (personal session, not auto-fixed)".toList] :=
  ⟨by decide, by decide,
   (processRun_status sampleTmux mixedProcesses sampleParents [] (by decide)).1.mpr
     (by decide),
   by decide,
   ((processRun_status sampleTmux mixedProcesses sampleParents [] (by decide)).2.2 _ rfl
     (by decide)).1.trans (by decide),
   ((processRun_status sampleTmux mixedProcesses sampleParents [] (by decide)).2.2 _ rfl
     (by decide)).2.trans (by decide)⟩

/-- C14: `OrphanProcessCheck.Run` puts every candidate process into exactly
one of three categories: inside-supervision when `isOrphanProcess` is false,
orphaned-managed when it is orphaned and `isGasTown` is true,
orphaned-personal when it is orphaned and `isGasTown` is false.  The three
counts add up to the number of candidates, and the list cached for `Fix` is
the orphaned-managed list. -/
theorem processRun_categorizes (tmuxPIDs : Int → Bool) (runtimeProcs : List processInfo)
    (parentOf : Int → Option Int) (cached : List processInfo) :
    (OrphanProcessCheck.categorize parentOf tmuxPIDs runtimeProcs ⟨0, [], []⟩).insideTmux =
        (runtimeProcs.filter (fun p =>
          !OrphanProcessCheck.isOrphanProcess parentOf p tmuxPIDs)).length ∧
      (OrphanProcessCheck.categorize parentOf tmuxPIDs runtimeProcs
        ⟨0, [], []⟩).orphanedGasTown =
        runtimeProcs.filter (fun p =>
          OrphanProcessCheck.isOrphanProcess parentOf p tmuxPIDs && p.isGasTown) ∧
      (OrphanProcessCheck.categorize parentOf tmuxPIDs runtimeProcs
        ⟨0, [], []⟩).orphanedPersonal =
        runtimeProcs.filter (fun p =>
          OrphanProcessCheck.isOrphanProcess parentOf p tmuxPIDs && !p.isGasTown) ∧
      (OrphanProcessCheck.categorize parentOf tmuxPIDs runtimeProcs ⟨0, [], []⟩).insideTmux +
        (OrphanProcessCheck.categorize parentOf tmuxPIDs runtimeProcs
          ⟨0, [], []⟩).orphanedGasTown.length +
        (OrphanProcessCheck.categorize parentOf tmuxPIDs runtimeProcs
          ⟨0, [], []⟩).orphanedPersonal.length = runtimeProcs.length ∧
      (runtimeProcs ≠ [] →
        (OrphanProcessCheck.Run (Except.ok tmuxPIDs) (Except.ok runtimeProcs)
          parentOf cached).2 =
        (OrphanProcessCheck.categorize parentOf tmuxPIDs runtimeProcs
          ⟨0, [], []⟩).orphanedGasTown) := by
  have hscan := categorize_spec parentOf tmuxPIDs runtimeProcs ⟨0, [], []⟩
  simp only [List.nil_append, Nat.zero_add] at hscan
  refine ⟨by rw [hscan], by rw [hscan], by rw [hscan], ?_, ?_⟩
  · rw [hscan]
    exact length_filter_three
      (fun p => OrphanProcessCheck.isOrphanProcess parentOf p tmuxPIDs)
      (fun p => p.isGasTown) runtimeProcs
  · intro hne
    have hlen : ¬ runtimeProcs.length = 0 := fun h => hne (List.length_eq_zero.mp h)
    unfold OrphanProcessCheck.Run
    simp only [hlen, if_false]
    split <;> rfl

/-- Worked example of C14: the three sample candidates fall one in each
category, and the fleet orphan is what `Run` caches. -/
theorem processRun_categorizes_witness :
    mixedProcesses ≠ [] ∧
      (OrphanProcessCheck.Run (Except.ok sampleTmux) (Except.ok mixedProcesses)
        sampleParents []).2 =
      (OrphanProcessCheck.categorize sampleParents sampleTmux mixedProcesses
        ⟨0, [], []⟩).orphanedGasTown :=
  ⟨by decide,
   (processRun_categorizes sampleTmux mixedProcesses sampleParents []).2.2.2.2 (by decide)⟩

/-! Section: Process ancestry -/

/-- C15: with the parent lookup a partial function, `isOrphanProcess` returns
false if and only if some PID on the ancestry walk is a supervisor PID: there
is a `k` such that the `k`-th ancestor of `proc.ppid` is in `tmuxPIDs`, and the
chain up to it has no failed lookup, no PID `≤ 1` and no repeated PID.  In
every other case it returns true. -/
theorem isOrphanProcess_iff (parentOf : Int → Option Int) (proc : processInfo)
    (tmuxPIDs : Int → Bool) :
    (OrphanProcessCheck.isOrphanProcess parentOf proc tmuxPIDs = false ↔
      ∃ k p, ancestor parentOf k proc.ppid = some p ∧ tmuxPIDs p = true ∧
        (∀ j, j ≤ k → ∃ q, ancestor parentOf j proc.ppid = some q ∧ 1 < q) ∧
        ∀ i j, i < j → j ≤ k →
          ancestor parentOf i proc.ppid ≠ ancestor parentOf j proc.ppid) ∧
    (OrphanProcessCheck.isOrphanProcess parentOf proc tmuxPIDs = true ↔
      ¬ ∃ k p, ancestor parentOf k proc.ppid = some p ∧ tmuxPIDs p = true ∧
        (∀ j, j ≤ k → ∃ q, ancestor parentOf j proc.ppid = some q ∧ 1 < q) ∧
        ∀ i j, i < j → j ≤ k →
          ancestor parentOf i proc.ppid ≠ ancestor parentOf j proc.ppid) := by
  have h1 : OrphanProcessCheck.isOrphanProcess parentOf proc tmuxPIDs = false ↔
      ∃ k p, ancestor parentOf k proc.ppid = some p ∧ tmuxPIDs p = true ∧
        (∀ j, j ≤ k → ∃ q, ancestor parentOf j proc.ppid = some q ∧ 1 < q) ∧
        ∀ i j, i < j → j ≤ k →
          ancestor parentOf i proc.ppid ≠ ancestor parentOf j proc.ppid := by
    rw [isOrphanProcess_false_iff]
    unfold reachesSupervisor
    constructor
    · rintro ⟨k, p, hk, hp, hall, hd⟩
      refine ⟨k, p, hk, hp, fun j hj => ?_, hd⟩
      obtain ⟨q, hq1, hq2, _⟩ := hall j hj
      exact ⟨q, hq1, hq2⟩
    · rintro ⟨k, p, hk, hp, hall, hd⟩
      refine ⟨k, p, hk, hp, fun j hj => ?_, hd⟩
      obtain ⟨q, hq1, hq2⟩ := hall j hj
      exact ⟨q, hq1, hq2, List.not_mem_nil q⟩
  refine ⟨h1, ?_⟩
  rw [← h1]
  cases OrphanProcessCheck.isOrphanProcess parentOf proc tmuxPIDs <;> simp

/-- C16: the ancestry walk of `isOrphanProcess` terminates for every
parent-lookup function: within `maxWalk` steps it returns a value, which is
the value of `isOrphanProcess`.  When no PID of the ancestry chain is a
supervisor PID, in particular on a cyclic chain without one, the process is
classified as orphaned. -/
theorem isOrphanProcess_terminates (parentOf : Int → Option Int) (proc : processInfo)
    (tmuxPIDs : Int → Bool) :
    (∃ b, ancestryWalk parentOf tmuxPIDs maxWalk proc.ppid [] = some b ∧
      OrphanProcessCheck.isOrphanProcess parentOf proc tmuxPIDs = b) ∧
    ((∀ k q, ancestor parentOf k proc.ppid = some q → tmuxPIDs q = false) →
      OrphanProcessCheck.isOrphanProcess parentOf proc tmuxPIDs = true) :=
  ⟨⟨_, isOrphanProcess_eq_walk parentOf proc tmuxPIDs, rfl⟩,
   isOrphanProcess_of_no_supervisor parentOf proc tmuxPIDs⟩

/-- Worked example of C16: PIDs 5 and 6 are each other's parent, so the chain
from PID 5 is cyclic, never reaches PID 1 and has no failed lookup; with no
supervisor PID at all the process is an orphan. -/
theorem isOrphanProcess_terminates_witness :
    ancestor sampleParents 2 5 = some 5 ∧
      (∀ k, ∃ q, ancestor sampleParents k 5 = some q ∧ 1 < q) ∧
      OrphanProcessCheck.isOrphanProcess sampleParents
        ⟨4302, 5, "codex".toList, "codex".toList, true⟩ (fun _ => false) = true := by
  refine ⟨by decide, ?_,
    (isOrphanProcess_terminates sampleParents ⟨4302, 5, "codex".toList, "codex".toList, true⟩
      (fun _ => false)).2 (fun _ _ _ => rfl)⟩
  have h : ∀ k, (ancestor sampleParents k 5 = some 5 ∨ ancestor sampleParents k 5 = some 6) ∧
      (ancestor sampleParents k 6 = some 5 ∨ ancestor sampleParents k 6 = some 6) := by
    intro k
    induction k with
    | zero => exact ⟨Or.inl rfl, Or.inr rfl⟩
    | succ k ih =>
      have h5 : lookupParent sampleParents 5 = some 6 := by decide
      have h6 : lookupParent sampleParents 6 = some 5 := by decide
      rw [ancestor_succ_of_lookup sampleParents k 5 6 h5,
        ancestor_succ_of_lookup sampleParents k 6 5 h6]
      exact ⟨ih.2, ih.1⟩
  intro k
  rcases (h k).1 with h1 | h1
  · exact ⟨5, h1, by decide⟩
  · exact ⟨6, h1, by decide⟩

/-- C17: ambiguous ancestry resolves to orphaned.  If the walk reaches the
`k`-th ancestor `q` without having met a supervisor PID and the parent lookup
of `q` fails (the query errors, its output is not a number, or the number does
not fit an `int`), `isOrphanProcess` returns true. -/
theorem isOrphanProcess_of_failed_lookup (parentOf : Int → Option Int) (proc : processInfo)
    (tmuxPIDs : Int → Bool) (k : Nat) (q : Int)
    (hq : ancestor parentOf k proc.ppid = some q)
    (hfail : (parentOf q).bind scanInt = none)
    (hno : ∀ j, j ≤ k → ∀ p, ancestor parentOf j proc.ppid = some p → tmuxPIDs p = false) :
    OrphanProcessCheck.isOrphanProcess parentOf proc tmuxPIDs = true := by
  apply isOrphanProcess_of_no_supervisor
  intro j p hp
  by_cases hj : j ≤ k
  · exact hno j hj p hp
  · rw [ancestor_none_after parentOf k proc.ppid q hq hfail j (by omega)] at hp
    cases hp

/-- Worked example of C17: the parent lookup of PID 4 fails, so a process whose
parent is PID 4 is an orphan. -/
theorem isOrphanProcess_of_failed_lookup_witness :
    ancestor sampleParents 0 4 = some 4 ∧ (sampleParents 4).bind scanInt = none ∧
      OrphanProcessCheck.isOrphanProcess sampleParents
        ⟨4400, 4, "claude".toList, "claude".toList, true⟩ sampleTmux = true :=
  ⟨rfl, by decide,
   isOrphanProcess_of_failed_lookup sampleParents
     ⟨4400, 4, "claude".toList, "claude".toList, true⟩ sampleTmux 0 4 rfl (by decide)
     (fun j hj p hp => by
       have hj0 : j = 0 := by omega
       subst hj0
       cases hp
       decide)⟩

/-- C18: the managed flag never influences the orphan decision: for every
supervisor-PID set and parent lookup, two process records with the same `ppid`
get the same `isOrphanProcess` result, whatever their `isGasTown` flag, `pid`,
command and arguments. -/
theorem isOrphanProcess_depends_on_ppid_only (parentOf : Int → Option Int)
    (tmuxPIDs : Int → Bool) (p1 p2 : processInfo) (h : p1.ppid = p2.ppid) :
    OrphanProcessCheck.isOrphanProcess parentOf p1 tmuxPIDs =
      OrphanProcessCheck.isOrphanProcess parentOf p2 tmuxPIDs := by
  unfold OrphanProcessCheck.isOrphanProcess
  rw [h]

/-- Worked example of C18: a fleet process and a personal session with the
same parent PID 77. -/
theorem isOrphanProcess_depends_on_ppid_only_witness :
    OrphanProcessCheck.isOrphanProcess sampleParents
        ⟨4301, 77, "claude".toList, "claude --dangerously-skip-permissions".toList, true⟩
        sampleTmux =
      OrphanProcessCheck.isOrphanProcess sampleParents
        ⟨9, 77, "codex".toList, "codex".toList, false⟩ sampleTmux :=
  isOrphanProcess_depends_on_ppid_only sampleParents sampleTmux
    ⟨4301, 77, "claude".toList, "claude --dangerously-skip-permissions".toList, true⟩
    ⟨9, 77, "codex".toList, "codex".toList, false⟩ rfl

/-! Section: Order of calls and returned error of the fix operations -/

/-- C19: log before you kill.  In the calls issued by `OrphanSessionCheck.Fix`
every `KillSession` of a session is immediately preceded by the audit event
whose subject is that session, and in the calls issued by
`OrphanProcessCheck.Fix` every `kill` of a PID is immediately preceded by the
audit event whose subject is `pid-<pid>`; the session pass issues no PID kill
and the process pass no session kill. -/
theorem fix_logs_before_kill {σ ε : Type} (env : Collaborators σ ε)
    (orphanSessions : List Str) (orphanProcesses : List processInfo) (world : σ) :
    (∀ pre post sess,
      (OrphanSessionCheck.Fix env orphanSessions world).trace =
        pre ++ Action.KillSession sess :: post →
      ∃ pre1, pre = pre1 ++
        [Action.LogFeed EventType.TypeSessionDeath sess (sessionDeath sess)]) ∧
    (∀ pre post pid,
      (OrphanSessionCheck.Fix env orphanSessions world).trace ≠
        pre ++ Action.Kill pid :: post) ∧
    (∀ pre post pid,
      (OrphanProcessCheck.Fix env orphanProcesses world).trace =
        pre ++ Action.Kill pid :: post →
      ∃ pre1, pre = pre1 ++
        [Action.LogFeed EventType.TypeSessionDeath (pidSubject pid) (processDeath pid)]) ∧
    (∀ pre post sess,
      (OrphanProcessCheck.Fix env orphanProcesses world).trace ≠
        pre ++ Action.KillSession sess :: post) := by
  refine ⟨?_, ?_, ?_, ?_⟩
  · intro pre post sess h
    rw [sessionFix_trace] at h
    exact (sessionFixCalls_logged _ pre post _ h).1 sess rfl
  · intro pre post pid h
    rw [sessionFix_trace] at h
    exact (sessionFixCalls_logged _ pre post _ h).2 pid rfl
  · intro pre post pid h
    rw [processFix_trace] at h
    exact (processFixCalls_logged _ pre post _ h).1 pid rfl
  · intro pre post sess h
    rw [processFix_trace] at h
    exact (processFixCalls_logged _ pre post _ h).2 sess rfl

/-- Worked example of C19: the kill of PID 4103, the last call of the pass on
the sample processes, comes right after the audit event for `pid-4103`. -/
theorem fix_logs_before_kill_witness :
    ∃ pre1,
      [Action.LogFeed EventType.TypeSessionDeath (pidSubject 4101) (processDeath 4101),
       Action.Kill 4101,
       Action.LogFeed EventType.TypeSessionDeath (pidSubject 4103) (processDeath 4103)] =
      pre1 ++ [Action.LogFeed EventType.TypeSessionDeath (pidSubject 4103)
        (processDeath 4103)] :=
  (fix_logs_before_kill flakyCollaborators sampleOrphans sampleProcesses 0).2.2.1
    [Action.LogFeed EventType.TypeSessionDeath (pidSubject 4101) (processDeath 4101),
     Action.Kill 4101,
     Action.LogFeed EventType.TypeSessionDeath (pidSubject 4103) (processDeath 4103)]
    [] 4103 (by decide)

/-- C20: both fix operations are best-effort.  Whatever the collaborators
answer, a kill is attempted for every eligible target (non-crew orphan
session, managed orphan process), one answer per target, and the value
returned is the last error among those answers: `nil` exactly when no kill
failed (so also for an empty list), and the error `e` exactly when some kill
failed with `e` and no later kill failed. -/
theorem fix_best_effort {σ ε : Type} (env : Collaborators σ ε)
    (orphanSessions : List Str) (orphanProcesses : List processInfo) (world : σ) :
    (killedSessions (OrphanSessionCheck.Fix env orphanSessions world).trace =
        orphanSessions.filter (fun s => !isCrewSession s) ∧
      (sessionKillOutcomes env (orphanSessions.filter (fun s => !isCrewSession s))
        world).length = (orphanSessions.filter (fun s => !isCrewSession s)).length ∧
      (OrphanSessionCheck.Fix env orphanSessions world).lastErr =
        lastFailure (sessionKillOutcomes env
          (orphanSessions.filter (fun s => !isCrewSession s)) world)) ∧
    (killedPids (OrphanProcessCheck.Fix env orphanProcesses world).trace =
        (orphanProcesses.filter (fun p => p.isGasTown)).map (fun p => p.pid) ∧
      (processKillOutcomes env (orphanProcesses.filter (fun p => p.isGasTown))
        world).length = (orphanProcesses.filter (fun p => p.isGasTown)).length ∧
      (OrphanProcessCheck.Fix env orphanProcesses world).lastErr =
        lastFailure (processKillOutcomes env
          (orphanProcesses.filter (fun p => p.isGasTown)) world)) ∧
    ((OrphanSessionCheck.Fix env [] world).lastErr = none ∧
      (OrphanProcessCheck.Fix env [] world).lastErr = none) ∧
    ∀ answers : List (Option ε),
      (lastFailure answers = none ↔ ∀ r ∈ answers, r = none) ∧
      ∀ e, (lastFailure answers = some e ↔
        ∃ pre post, answers = pre ++ some e :: post ∧ ∀ r ∈ post, r = none) := by
  refine ⟨⟨?_, length_sessionKillOutcomes env _ world, sessionFix_lastErr env _ world⟩,
    ⟨?_, length_processKillOutcomes env _ world, processFix_lastErr env _ world⟩,
    ⟨rfl, rfl⟩, fun answers => ⟨lastFailure_eq_none_iff answers,
      fun e => lastFailure_eq_some_iff answers e⟩⟩
  · rw [sessionFix_trace, killedSessions_sessionFixCalls]
  · rw [processFix_trace, killedPids_processFixCalls]

/-- Worked example of C20: with collaborators whose every kill fails, both
non-crew sample sessions are killed and the error returned is the one of the
last of them. -/
theorem fix_best_effort_witness :
    sessionKillOutcomes flakyCollaborators
        (sampleOrphans.filter (fun s => !isCrewSession s)) 0 =
        [some "no session gt-oldrig-witness".toList,
         some "no session gt-oldrig-nux".toList] ∧
      (OrphanSessionCheck.Fix flakyCollaborators sampleOrphans 0).lastErr =
        some "no session gt-oldrig-nux".toList :=
  ⟨by decide,
   ((fix_best_effort flakyCollaborators sampleOrphans sampleProcesses 0).1.2.2).trans
     (by decide)⟩

/-! Section: Lemmas on worker patterns -/

theorem Contains_slash_iff (s : Str) : Contains s "/".toList = true ↔ '/' ∈ s := by
  rw [Contains_iff]
  have e : "/".toList = ['/'] := rfl
  rw [e]
  constructor
  · rintro ⟨a, b, h⟩
    rw [← h]
    simp
  · intro h
    obtain ⟨a, b, hab⟩ := List.mem_iff_append.mp h
    exact ⟨a, b, by rw [hab]; simp⟩

theorem HasPrefix_iff (s pre : Str) : HasPrefix s pre = true ↔ ∃ rest, s = pre ++ rest := by
  unfold HasPrefix
  rw [List.isPrefixOf_iff_prefix]
  constructor
  · rintro ⟨rest, h⟩
    exact ⟨rest, h.symm⟩
  · rintro ⟨rest, h⟩
    exact ⟨rest, h.symm⟩

theorem matchWorkerPattern_wildcard (P caller : Str) (hc : caller ≠ []) :
    matchWorkerPattern (P ++ "/*".toList) caller =
      if HasPrefix caller (P ++ "/".toList) = true then
        !Contains (caller.drop (P ++ "/".toList).length) "/".toList
      else false := by
  have e2 : "/*".toList = ['/', '*'] := rfl
  have e1 : "/".toList = ['/'] := rfl
  have h1 : ¬ P ++ "/*".toList = [] := by
    rw [e2]
    intro h
    have := congrArg List.length h
    simp at this
  have h2 : ¬ P ++ "/*".toList = "*".toList := by
    rw [e2]
    intro h
    have := congrArg List.length h
    simp at this
  have h3 : HasSuffix (P ++ "/*".toList) "/*".toList = true := by
    unfold HasSuffix
    rw [List.isSuffixOf_iff_suffix]
    exact List.suffix_append P _
  have h4 : (P ++ "/*".toList).dropLast = P ++ "/".toList := by
    rw [e2, e1, List.dropLast_append_cons]
    rfl
  unfold matchWorkerPattern
  rw [if_neg h1, if_neg hc, if_neg h2, if_pos h3]
  simp only [h4]

theorem isEligibleWorker_true_iff (caller : Str) (patterns : List Str) :
    isEligibleWorker caller patterns = true ↔
      ∃ p, p ∈ patterns ∧ matchWorkerPattern p caller = true := by
  induction patterns with
  | nil => simp [isEligibleWorker]
  | cons p rest ih =>
    unfold isEligibleWorker
    by_cases hp : matchWorkerPattern p caller = true
    · rw [if_pos hp]
      exact ⟨fun _ => ⟨p, List.mem_cons_self p rest, hp⟩, fun _ => rfl⟩
    · rw [if_neg hp, ih]
      constructor
      · rintro ⟨q, hq, hm⟩
        exact ⟨q, List.mem_cons_of_mem p hq, hm⟩
      · rintro ⟨q, hq, hm⟩
        rcases List.mem_cons.mp hq with h | h
        · rw [h] at hm
          exact absurd hm hp
        · exact ⟨q, h, hm⟩

theorem matchWorkerPattern_agrees_with_tests :
    ∀ t ∈ matchWorkerPatternTests, matchWorkerPattern t.1 t.2.1 = t.2.2 := by
  decide

theorem isEligibleWorker_agrees_with_tests :
    ∀ t ∈ isEligibleWorkerTests, isEligibleWorker t.1 t.2.1 = t.2.2 := by
  decide

/-! Section: Lemmas on audit answers -/

theorem mem_sessionKillOutcomes {σ ε : Type} (env : Collaborators σ ε) (l : List Str)
    (world : σ) (r : Option ε) (hr : r ∈ sessionKillOutcomes env l world) :
    ∃ sess w1, sess ∈ l ∧ r = (env.KillSession sess w1).1 := by
  induction l generalizing world with
  | nil => simp [sessionKillOutcomes] at hr
  | cons s rest ih =>
    simp only [sessionKillOutcomes, List.mem_cons] at hr
    rcases hr with h | h
    · exact ⟨s, _, List.mem_cons_self s rest, h⟩
    · obtain ⟨sess, w1, hmem, heq⟩ := ih _ h
      exact ⟨sess, w1, List.mem_cons_of_mem s hmem, heq⟩

theorem mem_processKillOutcomes {σ ε : Type} (env : Collaborators σ ε)
    (l : List processInfo) (world : σ) (r : Option ε)
    (hr : r ∈ processKillOutcomes env l world) :
    ∃ proc w1, proc ∈ l ∧ r = (env.Kill proc.pid w1).1 := by
  induction l generalizing world with
  | nil => simp [processKillOutcomes] at hr
  | cons p rest ih =>
    simp only [processKillOutcomes, List.mem_cons] at hr
    rcases hr with h | h
    · exact ⟨p, _, List.mem_cons_self p rest, h⟩
    · obtain ⟨proc, w1, hmem, heq⟩ := ih _ h
      exact ⟨proc, w1, List.mem_cons_of_mem p hmem, heq⟩

theorem lastFailure_mem {ε : Type} (answers : List (Option ε)) (e : ε)
    (h : lastFailure answers = some e) : some e ∈ answers := by
  obtain ⟨pre, post, hp, _⟩ := (lastFailure_eq_some_iff answers e).mp h
  rw [hp]
  simp

theorem sessionFixLoop_congr {σ ε : Type} (env env2 : Collaborators σ ε)
    (hk : env2.KillSession = env.KillSession)
    (hl : ∀ t s p w1, (env2.LogFeed t s p w1).2 = (env.LogFeed t s p w1).2)
    (l : List Str) (st : FixState σ ε) :
    OrphanSessionCheck.fixLoop env2 l st = OrphanSessionCheck.fixLoop env l st := by
  induction l generalizing st with
  | nil => rfl
  | cons s rest ih =>
    by_cases hs : isCrewSession s = true
    · simp only [OrphanSessionCheck.fixLoop, hs, if_true, ih]
    · simp only [OrphanSessionCheck.fixLoop, hs, if_false, ih, hk, hl]

theorem processFixLoop_congr {σ ε : Type} (env env2 : Collaborators σ ε)
    (hk : env2.Kill = env.Kill)
    (hl : ∀ t s p w1, (env2.LogFeed t s p w1).2 = (env.LogFeed t s p w1).2)
    (l : List processInfo) (st : FixState σ ε) :
    OrphanProcessCheck.fixLoop env2 l st = OrphanProcessCheck.fixLoop env l st := by
  induction l generalizing st with
  | nil => rfl
  | cons p rest ih =>
    by_cases hp : p.isGasTown = true
    · simp only [OrphanProcessCheck.fixLoop, hp, not_true_eq_false, if_false, ih, hk, hl]
    · simp only [OrphanProcessCheck.fixLoop, hp, Bool.false_eq_true, not_false_eq_true,
        if_true, ih]

/-! Section: Worker patterns -/

/-- C21: the trailing wildcard matches exactly one path segment.  For every
prefix `P` and every non-empty caller, `matchWorkerPattern (P + "/*") caller`
is true if and only if the caller starts with `P + "/"` and the rest of the
caller after that prefix contains no `/`; `a/b/*` matches `a/b/c` but neither
`a/b/c/d` nor `x/b/c`. -/
theorem matchWorkerPattern_wildcard_iff (P caller : Str) (hc : caller ≠ []) :
    (matchWorkerPattern (P ++ "/*".toList) caller = true ↔
      HasPrefix caller (P ++ "/".toList) = true ∧
        Contains (caller.drop (P ++ "/".toList).length) "/".toList = false) ∧
    (matchWorkerPattern (P ++ "/*".toList) caller = true ↔
      ∃ rest, caller = P ++ "/".toList ++ rest ∧ '/' ∉ rest) ∧
    matchWorkerPattern "a/b/*".toList "a/b/c".toList = true ∧
    matchWorkerPattern "a/b/*".toList "a/b/c/d".toList = false ∧
    matchWorkerPattern "a/b/*".toList "x/b/c".toList = false := by
  have h1 : matchWorkerPattern (P ++ "/*".toList) caller = true ↔
      HasPrefix caller (P ++ "/".toList) = true ∧
        Contains (caller.drop (P ++ "/".toList).length) "/".toList = false := by
    rw [matchWorkerPattern_wildcard P caller hc]
    by_cases hp : HasPrefix caller (P ++ "/".toList) = true
    · rw [if_pos hp]
      cases Contains (caller.drop (P ++ "/".toList).length) "/".toList
      · exact ⟨fun _ => ⟨hp, rfl⟩, fun _ => rfl⟩
      · constructor
        · intro h
          cases h
        · intro h
          cases h.2
    · rw [if_neg hp]
      constructor
      · intro h
        cases h
      · intro h
        exact absurd h.1 hp
  refine ⟨h1, ?_, by decide, by decide, by decide⟩
  rw [h1]
  constructor
  · rintro ⟨hp, hcont⟩
    obtain ⟨rest, hrest⟩ := (HasPrefix_iff _ _).mp hp
    refine ⟨rest, hrest, ?_⟩
    intro hmem
    rw [hrest, List.drop_left] at hcont
    rw [(Contains_slash_iff rest).mpr hmem] at hcont
    cases hcont
  · rintro ⟨rest, hrest, hno⟩
    refine ⟨(HasPrefix_iff _ _).mpr ⟨rest, hrest⟩, ?_⟩
    rw [hrest, List.drop_left]
    cases hcont : Contains rest "/".toList
    · rfl
    · exact absurd ((Contains_slash_iff rest).mp hcont) hno

/-- Worked example of C21: the test's pattern `gastown/polecats/*` and caller
`gastown/polecats/capable`. -/
theorem matchWorkerPattern_wildcard_iff_witness :
    "gastown/polecats/capable".toList ≠ [] ∧
      matchWorkerPattern ("gastown/polecats".toList ++ "/*".toList)
        "gastown/polecats/capable".toList = true :=
  ⟨by decide,
   (matchWorkerPattern_wildcard_iff "gastown/polecats".toList
      "gastown/polecats/capable".toList (by decide)).2.1.mpr
     ⟨"capable".toList, by decide, by decide⟩⟩

/-- C22: `isEligibleWorker` is default-deny existential matching.  For every
caller and pattern list it is true if and only if `matchWorkerPattern` is true
for at least one pattern of the list; for the empty list (a Go empty or `nil`
slice) it is false for every caller. -/
theorem isEligibleWorker_iff (caller : Str) (patterns : List Str) :
    (isEligibleWorker caller patterns = true ↔
      ∃ p, p ∈ patterns ∧ matchWorkerPattern p caller = true) ∧
    isEligibleWorker caller [] = false :=
  ⟨isEligibleWorker_true_iff caller patterns, rfl⟩

/-! Section: Hyphenated rig names and audit failures -/

/-- C23: sessions of a rig whose name contains a hyphen are classified as
orphans.  For every known-rigs list and every rig name `a-b` whose part `a`
before the first hyphen is not a known rig, `isValidSession` is false on
`gt-a-b-x` for every `x`, whether or not `a-b` is a known rig, unless the
session equals a non-empty canonical coordinator or patrol-executor name. -/
theorem isValidSession_false_of_hyphenated_rig (validRigs : List Str) (a b x : Str)
    (mayorSession deaconSession : Str) (ha : '-' ∉ a) (hrig : a ∉ validRigs)
    (hm : ¬ (mayorSession ≠ [] ∧
      "gt-".toList ++ (a ++ "-".toList ++ b) ++ "-".toList ++ x = mayorSession))
    (hd : ¬ (deaconSession ≠ [] ∧
      "gt-".toList ++ (a ++ "-".toList ++ b) ++ "-".toList ++ x = deaconSession)) :
    OrphanSessionCheck.isValidSession
      ("gt-".toList ++ (a ++ "-".toList ++ b) ++ "-".toList ++ x)
      validRigs mayorSession deaconSession = false := by
  have hs : "gt-".toList ++ (a ++ "-".toList ++ b) ++ "-".toList ++ x =
      "gt".toList ++ '-' :: (a ++ '-' :: (b ++ "-".toList ++ x)) := by
    have e1 : "gt-".toList = "gt".toList ++ ['-'] := rfl
    have e2 : "-".toList = ['-'] := rfl
    rw [e1, e2]
    simp only [List.append_assoc, List.singleton_append, List.cons_append, List.nil_append]
  rw [hs] at hm hd ⊢
  cases hv : OrphanSessionCheck.isValidSession
      ("gt".toList ++ '-' :: (a ++ '-' :: (b ++ "-".toList ++ x)))
      validRigs mayorSession deaconSession with
  | false => rfl
  | true =>
    rcases (isValidSession_of_three "gt".toList a (b ++ "-".toList ++ x) validRigs
      mayorSession deaconSession (by decide) ha).mp hv with h1 | h1 | h1
    · exact absurd h1 hm
    · exact absurd h1 hd
    · exact absurd h1 hrig

/-- Worked example of C23: the rig `my-rig` is known, yet its witness session
`gt-my-rig-witness` is not valid. -/
theorem isValidSession_false_of_hyphenated_rig_witness :
    "my".toList ++ "-".toList ++ "rig".toList ∈ ["my-rig".toList, "acme".toList] ∧
      OrphanSessionCheck.isValidSession
        ("gt-".toList ++ ("my".toList ++ "-".toList ++ "rig".toList) ++ "-".toList ++
          "witness".toList)
        ["my-rig".toList, "acme".toList] "gt-acme-mayor".toList "gt-acme-deacon".toList =
        false :=
  ⟨by decide,
   isValidSession_false_of_hyphenated_rig ["my-rig".toList, "acme".toList] "my".toList
     "rig".toList "witness".toList "gt-acme-mayor".toList "gt-acme-deacon".toList
     (by decide) (by decide) (by decide) (by decide)⟩

/-- C24: a failure of the audit log neither stops nor surfaces in remediation.
In both fix operations the kills issued are the eligible targets whatever the
audit appends answer; an error returned by `Fix` is the answer of one of its
kill calls, so `Fix` returns `nil` when every kill succeeds even if every
append failed; and two collaborators that differ only in the answers of the
audit append give the same outcome. -/
theorem fix_ignores_feed_errors {σ ε : Type} (env env2 : Collaborators σ ε)
    (orphanSessions : List Str) (orphanProcesses : List processInfo) (world : σ) :
    (killedSessions (OrphanSessionCheck.Fix env orphanSessions world).trace =
        orphanSessions.filter (fun s => !isCrewSession s) ∧
      killedPids (OrphanProcessCheck.Fix env orphanProcesses world).trace =
        (orphanProcesses.filter (fun p => p.isGasTown)).map (fun p => p.pid)) ∧
    (∀ e, (OrphanSessionCheck.Fix env orphanSessions world).lastErr = some e →
      ∃ sess w1, (env.KillSession sess w1).1 = some e) ∧
    (∀ e, (OrphanProcessCheck.Fix env orphanProcesses world).lastErr = some e →
      ∃ pid w1, (env.Kill pid w1).1 = some e) ∧
    ((∀ sess w1, (env.KillSession sess w1).1 = none) →
      (OrphanSessionCheck.Fix env orphanSessions world).lastErr = none) ∧
    ((∀ pid w1, (env.Kill pid w1).1 = none) →
      (OrphanProcessCheck.Fix env orphanProcesses world).lastErr = none) ∧
    (env2.KillSession = env.KillSession → env2.Kill = env.Kill →
      (∀ t s p w1, (env2.LogFeed t s p w1).2 = (env.LogFeed t s p w1).2) →
      OrphanSessionCheck.Fix env2 orphanSessions world =
          OrphanSessionCheck.Fix env orphanSessions world ∧
        OrphanProcessCheck.Fix env2 orphanProcesses world =
          OrphanProcessCheck.Fix env orphanProcesses world) := by
  have hs : ∀ e, (OrphanSessionCheck.Fix env orphanSessions world).lastErr = some e →
      ∃ sess w1, (env.KillSession sess w1).1 = some e := by
    intro e he
    rw [sessionFix_lastErr] at he
    obtain ⟨sess, w1, _, heq⟩ := mem_sessionKillOutcomes env _ world _ (lastFailure_mem _ e he)
    exact ⟨sess, w1, heq.symm⟩
  have hp : ∀ e, (OrphanProcessCheck.Fix env orphanProcesses world).lastErr = some e →
      ∃ pid w1, (env.Kill pid w1).1 = some e := by
    intro e he
    rw [processFix_lastErr] at he
    obtain ⟨proc, w1, _, heq⟩ := mem_processKillOutcomes env _ world _ (lastFailure_mem _ e he)
    exact ⟨proc.pid, w1, heq.symm⟩
  refine ⟨⟨?_, ?_⟩, hs, hp, ?_, ?_, ?_⟩
  · rw [sessionFix_trace, killedSessions_sessionFixCalls]
  · rw [processFix_trace, killedPids_processFixCalls]
  · intro hall
    cases h : (OrphanSessionCheck.Fix env orphanSessions world).lastErr with
    | none => rfl
    | some e =>
      obtain ⟨sess, w1, hk⟩ := hs e h
      rw [hall sess w1] at hk
      cases hk
  · intro hall
    cases h : (OrphanProcessCheck.Fix env orphanProcesses world).lastErr with
    | none => rfl
    | some e =>
      obtain ⟨pid, w1, hk⟩ := hp e h
      rw [hall pid w1] at hk
      cases hk
  · intro hk1 hk2 hl
    constructor
    · unfold OrphanSessionCheck.Fix
      rw [sessionFixLoop_congr env env2 hk1 hl]
    · unfold OrphanProcessCheck.Fix
      rw [processFixLoop_congr env env2 hk2 hl]

/-- Worked example of C24: with collaborators whose every audit append fails
and whose every kill succeeds, both non-crew sample sessions are killed and
`Fix` returns `nil`. -/
theorem fix_ignores_feed_errors_witness :
    (∀ t s p w1, (deafFeed.LogFeed t s p w1).1 = some "feed unavailable".toList) ∧
      killedSessions (OrphanSessionCheck.Fix deafFeed sampleOrphans 0).trace =
        ["gt-oldrig-witness".toList, "gt-oldrig-nux".toList] ∧
      (OrphanSessionCheck.Fix deafFeed sampleOrphans 0).lastErr = none :=
  ⟨fun _ _ _ _ => rfl, by decide,
   (fix_ignores_feed_errors deafFeed deafFeed sampleOrphans sampleProcesses 0).2.2.2.1
     (fun _ _ => rfl)⟩

end Gastown
